import Mathlib

/-
Verification of the GLB_label_viewer annotated-document model.

The definitions below are a shallow embedding of the JavaScript sources:

* `Store` embeds `src/src/store/annotationStore.jsx` (the reducer-driven
  document store: LOAD_FILE_DATA, APPLY_LABELS, APPLY_LABEL_TO_FACES, UNDO,
  SET_SELECTED_POINTS, INVERT_SELECTION, UPDATE_SELECTED_FACES, ...).
* `Sel` embeds `src/src/utils/selectionUtils.js` (calculateSelectedFaces).
* `Ply` embeds the ASCII path of `src/src/utils/plyParser.js` (parsePLY,
  parseAsciiPLY, normalizeColorValue).
* `Glb` embeds the pure core of `exportGLB` from the GLB exporter module
  (deep-clone + parallel traversal + metadata attachment), with the external
  three.js clone modelled from the spec as a deep copy on an explicit node
  heap, so that mutation of the original scene is representable.

JavaScript numbers are modelled as `Rat` (for geometric/color data) and
`Int`/`Nat` (for ids, indices and counters).  JavaScript `undefined`/`null`
are modelled with `Option`.  JavaScript `Set` objects are modelled as
`Finset Nat` (insertion order is never observed by the code under study).
-/

namespace Store

/-- A point of the document.  Mirrors the objects produced by the parsers and
stored in `state.points`: `{position, color, labelId?, textureCoords?, normal?}`. -/
structure Point where
  position : ℚ × ℚ × ℚ
  color : ℚ × ℚ × ℚ
  labelId : Option Int := none
  textureCoords : Option (ℚ × ℚ) := none
  normal : Option (ℚ × ℚ × ℚ) := none
deriving DecidableEq

/-- A face of the document, as normalized by LOAD_FILE_DATA:
`{indices, labelId, textureCoords, color}` (plus the parser's materialIndex). -/
structure Face where
  indices : List ℕ
  labelId : Option Int := none
  textureCoords : Option (List ℚ) := none
  color : Option (ℚ × ℚ × ℚ) := none
  materialIndex : Option Int := none
deriving DecidableEq

/-- A label definition (`state.labels` entries).  `pointCount`/`faceCount`
are the optional precise counters produced by the GLB parser.  `visible` is
`undefined` on freshly parsed GLB labels; the reducer only ever tests it for
truthiness, so it is modelled as a `Bool` defaulting to `true`. -/
structure Label where
  id : Int
  name : String
  color : Option String := none
  visible : Bool := true
  pointCount : Option ℕ := none
  faceCount : Option ℕ := none
deriving DecidableEq

/-- `state.labelInfo`: incremental label statistics.  The two stats maps are
JavaScript objects keyed by the decimal string of a label id; they are
modelled as association lists keyed by the id itself (`toString` is injective
on integers).  The four counters are arbitrary JS numbers (subtraction can
drive them anywhere), hence `Int`. -/
structure LabelInfo where
  labelStats : List (Int × ℕ)
  faceLabelStats : List (Int × ℕ)
  labeledCount : Int
  unlabeledCount : Int
  faceLabeledCount : Int
  faceUnlabeledCount : Int
deriving DecidableEq

/-- A face entry of a LOAD_FILE_DATA payload.  The parsers emit either a
full face object (`face.indices` is an array, hence truthy even when empty)
or, in the legacy format, a bare index array. -/
inductive PayloadFace
  | obj (indices : List ℕ) (labelId : Option Int) (textureCoords : Option (List ℚ))
      (color : Option (ℚ × ℚ × ℚ))
  | arr (indices : List ℕ)
deriving DecidableEq

/-- JavaScript `x || null` on an optional integer: `0` is falsy and collapses
to `null`. -/
def jsOrNone : Option Int → Option Int
  | some v => if v = 0 then none else some v
  | none => none

/-- The face normalization performed inside LOAD_FILE_DATA: a full face
object keeps its fields (`labelId: face.labelId || null` etc.), a bare array
becomes a face with defaulted fields. -/
def normalizePayloadFace : PayloadFace → Face
  | .obj indices labelId tc c =>
      { indices := indices, labelId := jsOrNone labelId, textureCoords := tc, color := c }
  | .arr indices => { indices := indices, labelId := none, textureCoords := none, color := none }

/-- The payload of a LOAD_FILE_DATA action.  `materials`, `header`,
`originalScene` and `interactionMapping` are opaque to the store (it only
forwards them), so they are modelled with placeholder types. -/
structure LoadPayload where
  points : List Point
  faces : Option (List PayloadFace)
  materials : Option String := none
  textureFile : Option String := none
  header : Option String := none
  fields : List String := []
  labelInfo : Option LabelInfo := none
  originalScene : Option ℕ := none
  interactionMapping : Option ℕ := none
  labels : Option (List Label) := none
deriving DecidableEq

/-- The store state: the fields of `initialState` that are read or written by
the door commands under study.  Presentation-only fields (pointSize, viewMode,
colorAdjustment, background color, camera and modal flags, ...) are carried
through every reducer case unchanged by the object spread and are omitted. -/
structure AnnotationState where
  points : List Point
  labels : List Label
  selectedPoints : List ℕ
  selectedPointsHistory : List (List ℕ)
  history : List (List Point)
  fileHeader : Option String
  fileFields : List String
  labelInfo : Option LabelInfo
  hasMesh : Bool
  faces : List Face
  isPointCloudVisible : Bool
  meshSelectionMode : String
  selectedFaces : Finset ℕ
  isManualFaceSelection : Bool
  materials : Option String
  textureFile : Option String
  originalScene : Option ℕ
  interactionMapping : Option ℕ
  isNewFileLoaded : Bool
deriving DecidableEq

/-- The relevant fields of `initialState`. -/
def initialState : AnnotationState where
  points := []
  labels := []
  selectedPoints := []
  selectedPointsHistory := []
  history := []
  fileHeader := none
  fileFields := []
  labelInfo := none
  hasMesh := false
  faces := []
  isPointCloudVisible := true
  meshSelectionMode := "TOUCHING"
  selectedFaces := ∅
  isManualFaceSelection := false
  materials := none
  textureFile := none
  originalScene := none
  interactionMapping := none
  isNewFileLoaded := false

/-- The command set of the reducer (the cases exercised by the claims).
UPDATE_SELECTED_FACES accepts in the source either a bare collection or a
tagged `{faces, isManual}` object; both shapes are represented by the pair
below (`isManual` defaults to `false` for the bare shape). -/
inductive Action
  | setPoints (payload : List Point)
  | loadFileData (payload : LoadPayload)
  | applyLabels (pointIndices : List ℕ) (labelId : Int)
  | undo
  | setSelectedPoints (payload : List ℕ)
  | clearSelection
  | invertSelection
  | undoSelection
  | updateSelectedFaces (faces : List ℕ) (isManual : Bool)
  | applyLabelToFaces (faceIndices : List ℕ) (labelId : Int)
deriving DecidableEq

/-- Lookup in a stats object: `labelStats[k]`, `undefined` when absent. -/
def statLookup (m : List (Int × ℕ)) (k : Int) : Option ℕ :=
  (m.find? (fun e => e.1 = k)).map (fun e => e.2)

/-- `labelStats[k] || 0`. -/
def statVal (m : List (Int × ℕ)) (k : Int) : ℕ :=
  (statLookup m k).getD 0

/-- Property assignment `labelStats[k] = v`: replaces the existing entry or
appends a fresh one. -/
def statSet (m : List (Int × ℕ)) (k : Int) (v : ℕ) : List (Int × ℕ) :=
  if (m.find? (fun e => e.1 = k)).isSome then
    m.map (fun e => if e.1 = k then (k, v) else e)
  else m ++ [(k, v)]

/-- `delete labelStats[k]`. -/
def statErase (m : List (Int × ℕ)) (k : Int) : List (Int × ℕ) :=
  m.filter (fun e => e.1 ≠ k)

/-- `labelStats[k] = (labelStats[k] || 0) + 1`. -/
def statInc (m : List (Int × ℕ)) (k : Int) : List (Int × ℕ) :=
  statSet m k (statVal m k + 1)

/-- The decrement performed on the old label of a relabeled point/face:
`labelStats[k] = (labelStats[k] || 1) - 1; if (labelStats[k] <= 0) delete labelStats[k]`.
Note that a missing (or zero) entry yields `(|| 1) - 1 = 0` and is deleted. -/
def statDec (m : List (Int × ℕ)) (k : Int) : List (Int × ℕ) :=
  let v := (match statLookup m k with
    | some v => if v = 0 then 1 else v
    | none => 1) - 1
  if v = 0 then statErase m k else statSet m k v

/-- Sum of the values of a stats object. -/
def sumStats (m : List (Int × ℕ)) : ℕ :=
  (m.map (fun e => e.2)).sum

/-- The condition under which APPLY_LABELS counts a point label in the stats:
`labelId && labelId !== 0`. -/
def pointTracked (v : Int) : Bool := v ≠ 0

/-- The condition under which APPLY_LABEL_TO_FACES counts a face label:
`labelId && labelId !== 0 && labelId !== -1`. -/
def faceTracked (v : Int) : Bool := v ≠ 0 && v ≠ -1

/-- One iteration of the incremental statistics loop: remove the old label of
an affected element from the stats, then add its new label, adjusting the
running labeled-count delta. -/
def statUpdate (tracked : Int → Bool) (oldL newL : Option Int)
    (acc : List (Int × ℕ) × Int) : List (Int × ℕ) × Int :=
  let acc1 := match oldL with
    | some v => if tracked v then (statDec acc.1 v, acc.2 - 1) else acc
    | none => acc
  match newL with
  | some v => if tracked v then (statInc acc1.1 v, acc1.2 + 1) else acc1
  | none => acc1

/-- `Array.prototype.map` with the element index (`(point, index) => ...`). -/
def mapWithIndexGo (f : ℕ → α → β) : ℕ → List α → List β
  | _, [] => []
  | i, a :: l => f i a :: mapWithIndexGo f (i + 1) l

/-- `array.map((a, i) => f i a)`. -/
def mapWithIndex (f : ℕ → α → β) (l : List α) : List β :=
  mapWithIndexGo f 0 l

/-- `array.slice(-10)`: the last (at most) 10 elements. -/
def jsSliceLastTen (l : List (List ℕ)) : List (List ℕ) :=
  l.drop (l.length - 10)

/-- The defensive default substituted for a missing `state.labelInfo` by
APPLY_LABELS. -/
def defaultPointInfo (st : AnnotationState) : LabelInfo :=
  { labelStats := [], faceLabelStats := [], labeledCount := 0,
    unlabeledCount := (st.points.length : Int), faceLabeledCount := 0,
    faceUnlabeledCount := 0 }

/-- The defensive default substituted for a missing `state.labelInfo` by
APPLY_LABEL_TO_FACES (its `faceUnlabeledCount` default differs from the
APPLY_LABELS one). -/
def defaultFaceInfo (st : AnnotationState) : LabelInfo :=
  { labelStats := [], faceLabelStats := [], labeledCount := 0,
    unlabeledCount := (st.points.length : Int), faceLabeledCount := 0,
    faceUnlabeledCount := (st.faces.length : Int) }

/-- `newPoints` of APPLY_LABELS: every point whose index is in the payload
gets the new labelId, the rest are returned as-is. -/
def applyLabelsNewPoints (st : AnnotationState) (idxs : List ℕ) (L : Int) : List Point :=
  mapWithIndex (fun i p => if idxs.contains i then { p with labelId := some L } else p)
    st.points

/-- The incremental statistics loop of APPLY_LABELS: for each affected index,
remove the old label of `state.points[index]` from the stats and add the new
label of `newPoints[index]`, accumulating the labeled-count delta.
(For an out-of-range index the source throws; here the failed lookup is
skipped — all theorems below restrict to in-range payloads.) -/
def applyLabelsStats (st : AnnotationState) (idxs : List ℕ) (L : Int) :
    List (Int × ℕ) × Int :=
  idxs.foldl (fun acc i =>
    statUpdate pointTracked ((st.points.get? i).bind Point.labelId)
      (((applyLabelsNewPoints st idxs L).get? i).bind Point.labelId) acc)
    ((st.labelInfo.getD (defaultPointInfo st)).labelStats, 0)

/-- The APPLY_LABELS case of the reducer. -/
def applyLabelsCase (st : AnnotationState) (idxs : List ℕ) (L : Int) : AnnotationState :=
  { st with
      points := applyLabelsNewPoints st idxs L
      labelInfo := some { st.labelInfo.getD (defaultPointInfo st) with
        labeledCount := (st.labelInfo.getD (defaultPointInfo st)).labeledCount
          + (applyLabelsStats st idxs L).2
        unlabeledCount := (st.labelInfo.getD (defaultPointInfo st)).unlabeledCount
          - (applyLabelsStats st idxs L).2
        labelStats := (applyLabelsStats st idxs L).1 }
      history := st.history ++ [st.points] }

/-- `updatedFaces` of APPLY_LABEL_TO_FACES.  The source tests `face.indices`,
which is an array and hence always truthy (even when empty), so the
object-spread branch always applies. -/
def applyFacesNewFaces (st : AnnotationState) (idxs : List ℕ) (L : Int) : List Face :=
  mapWithIndex (fun i f => if idxs.contains i then { f with labelId := some L } else f)
    st.faces

/-- The incremental face-statistics loop of APPLY_LABEL_TO_FACES (the source
guards both array reads with `oldFace && ...` / `newFace && ...`, so an
out-of-range index is a genuine skip here). -/
def applyFacesStats (st : AnnotationState) (idxs : List ℕ) (L : Int) :
    List (Int × ℕ) × Int :=
  idxs.foldl (fun acc i =>
    statUpdate faceTracked ((st.faces.get? i).bind Face.labelId)
      (((applyFacesNewFaces st idxs L).get? i).bind Face.labelId) acc)
    ((st.labelInfo.getD (defaultFaceInfo st)).faceLabelStats, 0)

/-- The APPLY_LABEL_TO_FACES case of the reducer (a no-op without a mesh). -/
def applyLabelToFacesCase (st : AnnotationState) (idxs : List ℕ) (L : Int) :
    AnnotationState :=
  if !st.hasMesh then st
  else
    { st with
        faces := applyFacesNewFaces st idxs L
        labelInfo := some { st.labelInfo.getD (defaultFaceInfo st) with
          faceLabelStats := (applyFacesStats st idxs L).1
          faceLabeledCount := (st.labelInfo.getD (defaultFaceInfo st)).faceLabeledCount
            + (applyFacesStats st idxs L).2
          faceUnlabeledCount := (st.labelInfo.getD (defaultFaceInfo st)).faceUnlabeledCount
            - (applyFacesStats st idxs L).2 } }

/-- The statistics object built by LOAD_FILE_DATA when the payload labels
carry precise `pointCount`/`faceCount` fields (GLB decode with label
definitions): buckets are assigned per label (`labelStats[id] = count`) and
the totals are accumulated; unlabeled counts are clamped at 0. -/
def buildLabelInfoFromCounts (labels : List Label) (ptsLen facesLen : ℕ) : LabelInfo :=
  let r := labels.foldl (fun (acc : List (Int × ℕ) × List (Int × ℕ) × Int × Int) l =>
    let acc := match l.pointCount with
      | some n => if n ≠ 0 && decide (n > 0) then
          (statSet acc.1 l.id n, acc.2.1, acc.2.2.1 + (n : Int), acc.2.2.2)
        else acc
      | none => acc
    match l.faceCount with
    | some n => if n ≠ 0 && decide (n > 0) then
        (acc.1, statSet acc.2.1 l.id n, acc.2.2.1, acc.2.2.2 + (n : Int))
      else acc
    | none => acc) ([], [], 0, 0)
  { labelStats := r.1
    faceLabelStats := r.2.1
    labeledCount := r.2.2.1
    unlabeledCount := max 0 ((ptsLen : Int) - r.2.2.1)
    faceLabeledCount := r.2.2.2
    faceUnlabeledCount := max 0 ((facesLen : Int) - r.2.2.2) }

/-- The store reducer (named `annotationReducer` in the source), restricted to
the actions above.  Each case is a direct transcription of the corresponding
`switch` case.

One modelling note: in the APPLY_LABELS statistics loop the source reads
`state.points[index].labelId`, which throws a TypeError when `index` is out
of range; that unreachable-under-valid-payload crash is modelled as a skip
(`Option.bind` of a failed lookup), and every theorem about APPLY_LABELS
below restricts the payload to in-range indices. -/
def storeReducer (state : AnnotationState) (action : Action) : AnnotationState :=
  match action with
  | .setPoints payload =>
      { state with points := payload, history := state.history ++ [state.points] }
  | .loadFileData payload =>
      let hasMesh := payload.faces.isSome && !(payload.faces.getD []).isEmpty
      let facesData := if hasMesh then (payload.faces.getD []).map normalizePayloadFace else []
      let finalLabelInfo := match payload.labels with
        | some labels =>
            if !labels.isEmpty &&
                labels.any (fun l => l.faceCount.isSome || l.pointCount.isSome) then
              some (buildLabelInfoFromCounts labels payload.points.length facesData.length)
            else payload.labelInfo
        | none => payload.labelInfo
      { state with
          points := payload.points
          faces := facesData
          hasMesh := hasMesh
          materials := payload.materials
          textureFile := payload.textureFile
          originalScene := payload.originalScene
          interactionMapping := payload.interactionMapping
          labels := payload.labels.getD []
          isPointCloudVisible := !hasMesh
          selectedFaces := ∅
          fileHeader := payload.header
          fileFields := payload.fields
          labelInfo := finalLabelInfo
          history := state.history ++ [state.points]
          isNewFileLoaded := true }
  | .applyLabels pointIndices labelId => applyLabelsCase state pointIndices labelId
  | .undo =>
      match state.history.getLast? with
      | some previousState =>
          { state with points := previousState, history := state.history.dropLast }
      | none => state
  | .setSelectedPoints newSelection =>
      -- `isSameSelection` (equal lengths and element-wise equality) is list equality
      if newSelection = state.selectedPoints then state
      else
        { state with
            selectedPoints := newSelection
            selectedFaces := ∅
            isManualFaceSelection := false
            selectedPointsHistory :=
              jsSliceLastTen (state.selectedPointsHistory ++ [state.selectedPoints]) }
  | .clearSelection => { state with selectedPoints := [] }
  | .invertSelection =>
      let invertedSelection :=
        (List.range state.points.length).filter (fun i => !state.selectedPoints.contains i)
      let st1 := { state with selectedPoints := invertedSelection }
      if state.hasMesh && !state.faces.isEmpty then
        { st1 with selectedFaces :=
            ((List.range state.faces.length).filter
              (fun i => decide (i ∉ state.selectedFaces))).toFinset }
      else st1
  | .undoSelection =>
      match state.selectedPointsHistory.getLast? with
      | some previousSelection =>
          { state with
              selectedPoints := previousSelection
              selectedPointsHistory := state.selectedPointsHistory.dropLast }
      | none => state
  | .updateSelectedFaces fcs isManual =>
      { state with selectedFaces := fcs.toFinset, isManualFaceSelection := isManual }
  | .applyLabelToFaces faceIndices faceLabelId =>
      applyLabelToFacesCase state faceIndices faceLabelId

end Store

namespace Sel

/-- The label-visibility map built by `calculateSelectedFaces`
(`labels.forEach(label => map.set(label.id, label.visible))`): the last
definition with a given id wins. -/
def labelVisibilityLookup (labels : List Store.Label) (id : Int) : Option Bool :=
  (labels.reverse.find? (fun l => l.id = id)).map (fun l => l.visible)

/-- The skip condition for a face whose label is hidden:
`face.labelId && labelVisibilityMap.get(face.labelId) === false`
(a missing or zero `labelId` never hides the face). -/
def faceHidden (labels : List Store.Label) (face : Store.Face) : Bool :=
  match face.labelId with
  | some v => v ≠ 0 && (labelVisibilityLookup labels v == some false)
  | none => false

/-- The mode test: TOUCHING selects a face when some vertex index is in the
selected set, ENCLOSED when every vertex index is; any other mode string
selects nothing. -/
def faceMatchesMode (sel : List ℕ) (mode : String) (face : Store.Face) : Bool :=
  if mode = "TOUCHING" then face.indices.any (fun idx => sel.contains idx)
  else if mode = "ENCLOSED" then face.indices.all (fun idx => sel.contains idx)
  else false

/-- The `faces.forEach((face, faceIndex) => ...)` loop: collect the indices of
the faces that pass the predicate, starting at index `k`. -/
def collectSelectedFacesGo (pred : Store.Face → Bool) : ℕ → List Store.Face → List ℕ
  | _, [] => []
  | k, f :: fs =>
      if pred f then k :: collectSelectedFacesGo pred (k + 1) fs
      else collectSelectedFacesGo pred (k + 1) fs

/-- `calculateSelectedFaces(faces, labels, selectedPoints, meshSelectionMode)`
from selectionUtils.js.  The `selectedPoints` parameter is the documented
`Set<number>`, modelled as the list of its elements (`size === 0` is
`isEmpty`; the function only uses size and membership). -/
def calculateSelectedFaces (faces : List Store.Face) (labels : List Store.Label)
    (selectedPoints : List ℕ) (meshSelectionMode : String) : Finset ℕ :=
  if faces.isEmpty || selectedPoints.isEmpty then ∅
  else
    (collectSelectedFacesGo
      (fun f => !faceHidden labels f && faceMatchesMode selectedPoints meshSelectionMode f)
      0 faces).toFinset

end Sel

namespace Ply

/-- `normalizeColorValue` from plyParser.js.  The source multiplies by the
literal `0.00392156862745098`, which is the shortest decimal printing of the
binary64 value of 1/255 (the adjacent source comment spells it `1/255`); the
factor is modelled as the exact rational 1/255. -/
def normalizeColorValue (value : ℚ) : ℚ :=
  let normalized := if value > 1 then value * (1 / 255) else value
  if normalized < 0 then 0 else if normalized > 1 then 1 else normalized

/-- JS `line.split(/\s+/)` on a trimmed line: whitespace-separated tokens. -/
def splitWs (s : String) : List String :=
  (s.split (fun c => c = ' ' || c = '\t' || c = '\r')).filter (fun t => !t.isEmpty)

/-- A property definition from the PLY header (`property.type === 'list'` is
what the face parser branches on; scalar types are opaque on the ascii path
because all reads go through parseFloat / parseInt). -/
structure PropDef where
  name : String
  isList : Bool := false
deriving DecidableEq

/-- `propMap[properties[i].name.toLowerCase()] = i`, built left to right: the
last property with a given lowercased name wins. -/
def propIdx (properties : List PropDef) (nm : String) : Option ℕ :=
  (((Store.mapWithIndex (fun i p => (i, p.name.toLower)) properties).filter
    (fun e => e.2 = nm)).getLast?).map (fun e => e.1)

/-- A point as built by the parseAsciiPLY vertex loop (`labelId` is
`undefined` when the header declares no `label` property). -/
structure PPoint where
  position : ℚ × ℚ × ℚ
  color : ℚ × ℚ × ℚ
  labelId : Option Int := none
  textureCoords : Option (ℚ × ℚ) := none
deriving DecidableEq

/-- A face as built by the parseAsciiPLY face loop (`labelId` starts `null`). -/
structure PFace where
  indices : List Int := []
  labelId : Option Int := none
  textureCoords : Option (List Int) := none
  color : Option (ℚ × ℚ × ℚ) := none
deriving DecidableEq

/-- How the decode can throw.  `typed msg` is a deliberate
`throw new Error(msg)` (the parser's only such throw is the missing
`end_header` check); `typeErrorCrash` is the engine TypeError raised when the
statistics pass reads `.labelId` of a sparse-array hole (`undefined`);
`rangeErrorCrash` is the engine RangeError of `new Array(count)` for an
invalid parsed list count. -/
inductive PlyError where
  | typed (msg : String)
  | typeErrorCrash
  | rangeErrorCrash
deriving DecidableEq

/-- One vertex data line.  Coordinates default to 0 and colors to 1; color
channels pass through normalizeColorValue; a `label` property yields
`parseInt(values[labelIdx])`.  `parseFloat` and `parseInt` are JS builtins
external to the repository, taken as parameters `pF` and `pI`; an
out-of-range token read hands them `""`, standing for `undefined`. -/
def parseVertexLine (pF : String → ℚ) (pI : String → Int) (props : List PropDef)
    (values : List String) : PPoint :=
  let vAt := fun (j : ℕ) => values.getD j ""
  let coord := fun (nm : String) =>
    match propIdx props nm with
    | some j => pF (vAt j)
    | none => 0
  let chan := fun (nm nm2 : String) =>
    match (propIdx props nm).orElse (fun _ => propIdx props nm2) with
    | some j => normalizeColorValue (pF (vAt j))
    | none => 1
  let lab :=
    match propIdx props "label" with
    | some j => some (pI (vAt j))
    | none => none
  let sIdx := propIdx props "s"
  let tIdx := propIdx props "t"
  let tc :=
    match sIdx, tIdx with
    | none, none => none
    | _, _ => some ((match sIdx with | some j => pF (vAt j) | none => 0),
                    (match tIdx with | some j => pF (vAt j) | none => 0))
  { position := (coord "x", coord "y", coord "z"),
    color := (chan "red" "r", chan "green" "g", chan "blue" "b"),
    labelId := lab, textureCoords := tc }

/-- Slot `i` of the preallocated `new Array(vertexCount)`: `none` is a hole
(`lines[startLine + i]` missing past the end of the data, or blank, hits
`continue` and the slot is never assigned). -/
def asciiPointAt (pF : String → ℚ) (pI : String → Int) (lines : List String)
    (props : List PropDef) (startLine : ℕ) (i : ℕ) : Option PPoint :=
  match lines.get? (startLine + i) with
  | none => none
  | some l =>
      let line := l.trim
      if line.isEmpty then none
      else some (parseVertexLine pF pI props (splitWs line))

/-- The vertex array after the vertex loop (sparse: holes are `none`). -/
def asciiPoints (pF : String → ℚ) (pI : String → Int) (lines : List String)
    (props : List PropDef) (startLine vertexCount : ℕ) : List (Option PPoint) :=
  (List.range vertexCount).map (asciiPointAt pF pI lines props startLine)

/-- The per-face property loop, consuming tokens at `valueIndex` and breaking
when tokens run out.  `new Array(count)` raises a RangeError when the parsed
list count is negative (or NaN). -/
def parseFaceProps (pF : String → ℚ) (pI : String → Int) :
    List PropDef → ℕ → List String → PFace → Except PlyError PFace
  | [], _, _, f => .ok f
  | prop :: rest, vi, values, f =>
      if values.length ≤ vi then .ok f
      else if prop.isList then
        let count := pI (values.getD vi "")
        if count < 0 then .error .rangeErrorCrash
        else
          let lst := (List.range count.toNat).map
            (fun k => pI (values.getD (vi + 1 + k) ""))
          let f' :=
            if prop.name = "vertex_indices" then { f with indices := lst }
            else if prop.name = "texcoord" then { f with textureCoords := some lst }
            else f
          parseFaceProps pF pI rest (vi + 1 + count.toNat) values f'
      else
        let v := values.getD vi ""
        let c := f.color.getD (1, 1, 1)
        let f' :=
          if prop.name = "label" then { f with labelId := some (pI v) }
          else if prop.name = "red" then
            { f with color := some (normalizeColorValue (pF v), c.2.1, c.2.2) }
          else if prop.name = "green" then
            { f with color := some (c.1, normalizeColorValue (pF v), c.2.2) }
          else if prop.name = "blue" then
            { f with color := some (c.1, c.2.1, normalizeColorValue (pF v)) }
          else f
        parseFaceProps pF pI rest (vi + 1) values f'

/-- The face loop over indices `0 ≤ i < faceCount`: it runs only while
`faceStartLine + i < lines.length`, so every index past the cutoff (and every
blank line) leaves a hole in the preallocated array; a RangeError thrown while
parsing a face line aborts the whole decode. -/
def buildFaces (pF : String → ℚ) (pI : String → Int) (lines : List String)
    (fprops : List PropDef) (faceStartLine : ℕ) :
    List ℕ → Except PlyError (List (Option PFace))
  | [] => .ok []
  | i :: rest =>
      if faceStartLine + i < lines.length then
        match lines.get? (faceStartLine + i) with
        | none => (buildFaces pF pI lines fprops faceStartLine rest).map (fun t => none :: t)
        | some l =>
            let line := l.trim
            if line.isEmpty then (buildFaces pF pI lines fprops faceStartLine rest).map (fun t => none :: t)
            else
              match parseFaceProps pF pI fprops 0 (splitWs line)
                  { indices := [], labelId := none, textureCoords := none,
                    color := none } with
              | .error e => .error e
              | .ok f => (buildFaces pF pI lines fprops faceStartLine rest).map (fun t => some f :: t)
      else (buildFaces pF pI lines fprops faceStartLine rest).map (fun t => none :: t)

/-- `faces` stays `null` when `faceCount === 0`; otherwise the face loop. -/
def asciiFaces (pF : String → ℚ) (pI : String → Int) (lines : List String)
    (fprops : List PropDef) (startLine vertexCount faceCount : ℕ) :
    Except PlyError (Option (List (Option PFace))) :=
  if faceCount = 0 then .ok none
  else (buildFaces pF pI lines fprops (startLine + vertexCount)
    (List.range faceCount)).map some

/-- The `{ points, faces }` value parseAsciiPLY returns (the vertex loop
cannot throw; the face loop can). -/
structure AsciiData where
  points : List (Option PPoint)
  faces : Option (List (Option PFace))
deriving DecidableEq

def parseAsciiPLYFn (pF : String → ℚ) (pI : String → Int) (lines : List String)
    (props fprops : List PropDef) (startLine vertexCount faceCount : ℕ) :
    Except PlyError AsciiData :=
  match asciiFaces pF pI lines fprops startLine vertexCount faceCount with
  | .error e => .error e
  | .ok fcs =>
      .ok { points := asciiPoints pF pI lines props startLine vertexCount,
            faces := fcs }

/-- parsePLY step 4, point half: `for (const point of points)` visits the
holes of the sparse array as `undefined`, so `point.labelId` on a hole is the
TypeError crash; otherwise `labelId !== undefined && !== null` counts. -/
def statsPointsGo : ℕ → List (Int × ℕ) → List (Option PPoint) →
    Except PlyError (ℕ × List (Int × ℕ))
  | lc, ls, [] => .ok (lc, ls)
  | _, _, none :: _ => .error .typeErrorCrash
  | lc, ls, some p :: rest =>
      match p.labelId with
      | some v => statsPointsGo (lc + 1) (Store.statInc ls v) rest
      | none => statsPointsGo lc ls rest

/-- parsePLY step 4, face half (`labelId !== undefined && !== null && !== -1`
counts). -/
def statsFacesGo : ℕ → List (Int × ℕ) → List (Option PFace) →
    Except PlyError (ℕ × List (Int × ℕ))
  | lc, ls, [] => .ok (lc, ls)
  | _, _, none :: _ => .error .typeErrorCrash
  | lc, ls, some f :: rest =>
      match f.labelId with
      | some v =>
          if v = -1 then statsFacesGo lc ls rest
          else statsFacesGo (lc + 1) (Store.statInc ls v) rest
      | none => statsFacesGo lc ls rest

/-- The decoded document of the ascii path. -/
structure PlyParsed where
  points : List (Option PPoint)
  faces : Option (List (Option PFace))
  labelInfo : Store.LabelInfo
deriving DecidableEq

/-- parsePLY's ascii path after the header scan: parseAsciiPLY, then the
label-statistics pass over the possibly-sparse arrays, then the result object
with its labelInfo.  (The binary branch, texture/material plumbing and
comment metadata are independent of the counts and are not read here.) -/
def parsePLYAscii (pF : String → ℚ) (pI : String → Int) (lines : List String)
    (props fprops : List PropDef) (startLine vertexCount faceCount : ℕ) :
    Except PlyError PlyParsed :=
  match parseAsciiPLYFn pF pI lines props fprops startLine vertexCount faceCount with
  | .error e => .error e
  | .ok d =>
    match statsPointsGo 0 [] d.points with
    | .error e => .error e
    | .ok (lc, ls) =>
      match (match d.faces with
             | none => Except.ok (0, ([] : List (Int × ℕ)))
             | some fl => statsFacesGo 0 [] fl) with
      | .error e => .error e
      | .ok (flc, fls) =>
          .ok { points := d.points, faces := d.faces,
                labelInfo :=
                  { labelStats := ls, faceLabelStats := fls,
                    labeledCount := (lc : Int),
                    unlabeledCount := (d.points.length : Int) - (lc : Int),
                    faceLabeledCount := (flc : Int),
                    faceUnlabeledCount :=
                      match d.faces with
                      | some fl => (fl.length : Int) - (flc : Int)
                      | none => 0 } }

end Ply

namespace Store

/-- Number of elements of a label-id list carrying exactly the label `K`
(the reference count against which the incremental stats are compared). -/
def cntL (K : Int) : List (Option Int) → ℕ
  | [] => 0
  | o :: t => (if o = some K then 1 else 0) + cntL K t

/-- Setting the label of every listed index to `K` (the effect of an
APPLY_LABELS / APPLY_LABEL_TO_FACES command on the label-id column). -/
def setAllL (lbls : List (Option Int)) (idxs : List ℕ) (L : Int) : List (Option Int) :=
  idxs.foldl (fun l i => l.set i (some L)) lbls

/-- The keys of a stats object are distinct (true of every JavaScript
object). -/
def keysNodup (m : List (Int × ℕ)) : Prop := (m.map Prod.fst).Nodup

/-- A stats map is coherent with a label-id column when every tracked bucket
holds the exact element count for its label. -/
def StatsMapCoherent (tracked : Int → Bool) (m : List (Int × ℕ))
    (lbls : List (Option Int)) : Prop :=
  ∀ K, tracked K = true → statVal m K = cntL K lbls

/-- Full statistics coherence of a store state: `labelInfo` is present, its
counters satisfy the documented invariant, and every tracked bucket matches
the actual per-label count (as the point-cloud decoder's statistics pass
produces).  This is the inductive strengthening of `StatsInvariant`. -/
def StatsCoherent (st : AnnotationState) : Prop :=
  ∃ info, st.labelInfo = some info ∧
    keysNodup info.labelStats ∧ keysNodup info.faceLabelStats ∧
    (sumStats info.labelStats : Int) = info.labeledCount ∧
    info.labeledCount + info.unlabeledCount = (st.points.length : Int) ∧
    StatsMapCoherent pointTracked info.labelStats (st.points.map Point.labelId) ∧
    (sumStats info.faceLabelStats : Int) = info.faceLabeledCount ∧
    info.faceLabeledCount + info.faceUnlabeledCount = (st.faces.length : Int) ∧
    StatsMapCoherent faceTracked info.faceLabelStats (st.faces.map Face.labelId)

/-- The statistics invariant claimed by the spec: the stats buckets sum to
the labeled count and labeled plus unlabeled equals the total, for points and
for faces. -/
def StatsInvariant (st : AnnotationState) : Prop :=
  ∃ info, st.labelInfo = some info ∧
    (sumStats info.labelStats : Int) = info.labeledCount ∧
    info.labeledCount + info.unlabeledCount = (st.points.length : Int) ∧
    (sumStats info.faceLabelStats : Int) = info.faceLabeledCount ∧
    info.faceLabeledCount + info.faceUnlabeledCount = (st.faces.length : Int)

/-- Well-formed label-assignment commands: the index payload is a set
(duplicate-free, as `selectedPoints`/`selectedFaces` are) of in-range
indices.  Only the two label-assignment commands are admitted. -/
def WfCmd (nPts nFcs : ℕ) : Action → Prop
  | .applyLabels idxs _ => idxs.Nodup ∧ ∀ i ∈ idxs, i < nPts
  | .applyLabelToFaces idxs _ => idxs.Nodup ∧ ∀ i ∈ idxs, i < nFcs
  | _ => False

/-- The incremental-statistics loop of the reducer, re-expressed over the
label-id column of the affected array (proof infrastructure: the lemma
`applyLabels_labelInfo` below identifies the reducer's loop with this
fold). -/
def statFold (tracked : Int → Bool) (L : Int) (lbls : List (Option Int))
    (idxs : List ℕ) (acc : List (Int × ℕ) × Int) : List (Int × ℕ) × Int :=
  idxs.foldl (fun acc i => statUpdate tracked ((lbls.get? i).getD none) (some L) acc) acc

end Store

/-! ### Concrete states used in the claim evaluations -/

/-- A prior state with a nonempty point selection, the manual-face flag set
and an empty undo history, used to evaluate LOAD_FILE_DATA. -/
def loadPriorState : Store.AnnotationState :=
  { Store.initialState with selectedPoints := [0], isManualFaceSelection := true }

/-- An empty decoded payload. -/
def loadPayload0 : Store.LoadPayload := { points := [], faces := none }

/-- A state with a mesh present, no current selection and a cleared
manual-face-selection flag. -/
def invertPriorState : Store.AnnotationState :=
  { Store.initialState with
      hasMesh := true
      points := [{ position := (0, 0, 0), color := (1, 1, 1) }]
      faces := [{ indices := [0, 0, 0] }] }

/-- A payload shaped like a GLB decode of a file with one pre-labeled point
(`_label_id` vertex attribute) and no label definitions: the GLB parser emits
`labels: []` and no `labelInfo` field at all. -/
def glbLoadedPayload : Store.LoadPayload :=
  { points := [{ position := (0, 0, 0), color := (1, 1, 1), labelId := some 5 }]
    faces := none
    labels := some [] }

/-- The store state after loading `glbLoadedPayload` and relabeling the
pre-labeled point with label 7. -/
def c2CexState : Store.AnnotationState :=
  Store.storeReducer (Store.storeReducer Store.initialState (.loadFileData glbLoadedPayload))
    (.applyLabels [0] 7)

/-- A coherently loaded one-point document (as the point-cloud decode
produces): one point labeled 5, stats bucket 5 holding 1. -/
def c2WitnessState : Store.AnnotationState :=
  { Store.initialState with
      points := [{ position := (0, 0, 0), color := (1, 1, 1), labelId := some 5 }]
      labelInfo := some
        { labelStats := [(5, 1)], faceLabelStats := [], labeledCount := 1,
          unlabeledCount := 0, faceLabeledCount := 0, faceUnlabeledCount := 0 } }

namespace Glb

/-- A half-open index range recorded in the interaction map (`{start, end}`
in the source; `end` is a Lean keyword, hence `stop`). -/
structure IRange where
  start : ℕ
  stop : ℕ
deriving DecidableEq

/-- The interaction mapping consumed by exportGLB: per-mesh-uuid point and
face ranges.  (The source object also carries `faceToMesh` and
`meshUuidToNode`, which the export path never reads.) -/
structure InteractionMapping where
  meshToPointRange : List (ℕ × IRange)
  meshToFaceRange : List (ℕ × IRange)
deriving DecidableEq

/-- A label definition as written to the clone's userData by exportGLB. -/
structure LabelDefOut where
  id : Int
  name : String
  color : Option String
  visible : Bool
deriving DecidableEq

/-- The per-node metadata bag (`userData`) fields read or written by the
export path. -/
structure NodeUserData where
  faceLabels : Option (List Int) := none
  labelDefinitions : Option (List LabelDefOut) := none
  originalHeader : Option String := none
deriving DecidableEq

/-- The geometry data relevant to export: the `position` attribute's vertex
count (if present) and the custom integer `_label_id` attribute. -/
structure Geometry where
  positionCount : Option ℕ := none
  labelAttr : Option (List Int) := none
deriving DecidableEq

/-- A scene-graph node. -/
structure SceneNode where
  isMesh : Bool
  geometry : Option Geometry := none
  userData : NodeUserData := {}
deriving DecidableEq

/-- The node heap: scene nodes addressed by uuid.  Mutating a node mutates
its heap entry, so writes to cloned nodes and writes to original nodes are
distinguishable (this is what makes the no-mutation claim expressible). -/
abbrev Heap := List (ℕ × SceneNode)

def hLookup (h : Heap) (id : ℕ) : Option SceneNode :=
  (h.find? (fun e => e.1 = id)).map (fun e => e.2)

def hUpdate (h : Heap) (id : ℕ) (f : SceneNode → SceneNode) : Heap :=
  h.map (fun e => if e.1 = id then (e.1, f e.2) else e)

def aLookup (m : List (ℕ × IRange)) (id : ℕ) : Option IRange :=
  (m.find? (fun e => e.1 = id)).map (fun e => e.2)

/-- The node returned for a dangling uuid (unreachable when the scene ids are
all present in the heap, as the theorems below require). -/
def defaultNode : SceneNode := { isMesh := false }

/-- First fresh uuid: one past every key of the heap. -/
def freshBase (h : Heap) : ℕ := (h.map (fun e => e.1)).foldr max 0 + 1

/-- Modelled from the spec: `originalScene.clone(true)` is a call into the
external scene-graph library (three.js), whose code is not part of this
repository.  The spec states that the codec "performs a deep clone of the
entire scene graph" and that "the clone assigns new node identities"; the
clone therefore allocates a fresh uuid per scene node, in traversal order,
copying each node's content, and the new entries are appended to the heap. -/
def cloneNodesGo (h : Heap) : ℕ → List ℕ → List (ℕ × SceneNode)
  | _, [] => []
  | k, id :: ids => (k, (hLookup h id).getD defaultNode) :: cloneNodesGo h (k + 1) ids

/-- The deep clone of a scene (list of node uuids in traversal order):
returns the grown heap and the cloned scene's uuids. -/
def cloneScene (h : Heap) (sceneIds : List ℕ) : Heap × List ℕ :=
  (h ++ cloneNodesGo h (freshBase h) sceneIds,
   (cloneNodesGo h (freshBase h) sceneIds).map (fun e => e.1))

/-- Step 3 of exportGLB: the map from point index to labelId, for points whose
labelId is neither undefined, null nor 0. -/
def pointLabelMap (points : List Store.Point) : List (ℕ × Int) :=
  (Store.mapWithIndex (fun i p => (i, p.labelId)) points).filterMap (fun e =>
    match e.2 with
    | some v => if v = 0 then none else some (e.1, v)
    | none => none)

def pmLookup (pm : List (ℕ × Int)) (i : ℕ) : Option Int :=
  (pm.find? (fun e => e.1 = i)).map (fun e => e.2)

/-- `face.labelId || 0`. -/
def jsOrZero : Option Int → Int
  | some v => if v = 0 then 0 else v
  | none => 0

/-- `faceLabelIds`: the global face-label array (empty when there is no face
data). -/
def faceLabelIdsOf (faces : Option (List Store.Face)) : List Int :=
  match faces with
  | some fs => if fs.isEmpty then [] else fs.map (fun f => jsOrZero f.labelId)
  | none => []

/-- Step 4e: the `_label_id` vertex attribute built for one cloned mesh — a
zero-initialized Int32Array sized to the clone's actual vertex count, filled
from the point-label map over the node's recorded point range (global indices
beyond the points array stay 0). -/
def buildLabelIds (pm : List (ℕ × Int)) (pr : IRange) (nPoints vertexCount : ℕ) : List Int :=
  (List.range vertexCount).map (fun localIndex =>
    if pr.start + localIndex < nPoints then (pmLookup pm (pr.start + localIndex)).getD 0
    else 0)

def setLabelAttr (arr : List Int) (n : SceneNode) : SceneNode :=
  { n with geometry := n.geometry.map (fun g => { g with labelAttr := some arr }) }

def setFaceLabels (arr : List Int) (n : SceneNode) : SceneNode :=
  { n with userData := { n.userData with faceLabels := some arr } }

/-- Step 4g: attach label definitions (when any exist) and the original file
header (when present) to the first matched mesh. -/
def setGlobalMeta (labels : List Store.Label) (originalHeader : Option String)
    (n : SceneNode) : SceneNode :=
  let defs := labels.map (fun l => LabelDefOut.mk l.id l.name l.color l.visible)
  let n1 := if !labels.isEmpty then
      { n with userData := { n.userData with labelDefinitions := some defs } }
    else n
  match originalHeader with
  | some hd => { n1 with userData := { n1.userData with originalHeader := some hd } }
  | none => n1

/-- Step 4e: attach the `_label_id` attribute to the cloned mesh when any
point carries a label and the clone's geometry has a position attribute. -/
def attachLabelAttr (pm : List (ℕ × Int)) (nPoints : ℕ) (geom : Geometry)
    (pr : IRange) (h : Heap) (clonedId : ℕ) : Heap :=
  if !pm.isEmpty then
    match geom.positionCount with
    | some vertexCount =>
        hUpdate h clonedId (setLabelAttr (buildLabelIds pm pr nPoints vertexCount))
    | none => h
  else h

/-- Step 4f: attach the face-label slice to the cloned mesh's userData when
any face data exists. -/
def attachFaceSlice (faceLabelIds : List Int) (fr : IRange) (h : Heap)
    (clonedId : ℕ) : Heap :=
  if !faceLabelIds.isEmpty then
    hUpdate h clonedId
      (setFaceLabels ((faceLabelIds.drop fr.start).take (fr.stop - fr.start)))
  else h

/-- Step 4g: attach the global metadata on the first loop iteration only. -/
def attachMeta (labels : List Store.Label) (originalHeader : Option String)
    (isFirst : Bool) (h : Heap) (clonedId : ℕ) : Heap :=
  if isFirst then hUpdate h clonedId (setGlobalMeta labels originalHeader) else h

/-- Steps 4c-4g for one original/cloned mesh pair: skip if the clone has no
geometry or the original's uuid has no recorded ranges; otherwise attach the
`_label_id` attribute, the face-label slice and, on the first pair only, the
global metadata.  All writes address the cloned uuid. -/
def attachMeshData (mapping : InteractionMapping) (pm : List (ℕ × Int))
    (nPoints : ℕ) (faceLabelIds : List Int) (labels : List Store.Label)
    (originalHeader : Option String) (isFirst : Bool)
    (h : Heap) (origId clonedId : ℕ) : Heap :=
  match (hLookup h clonedId).bind (fun n => n.geometry) with
  | none => h
  | some geom =>
    match aLookup mapping.meshToPointRange origId, aLookup mapping.meshToFaceRange origId with
    | some pr, some fr =>
        attachMeta labels originalHeader isFirst
          (attachFaceSlice faceLabelIds fr
            (attachLabelAttr pm nPoints geom pr h clonedId) clonedId) clonedId
    | _, _ => h

/-- The Step 4c loop over the zipped original/cloned mesh lists, tracking the
loop index (only `i == 0` matters, for the global-metadata attachment). -/
def attachLoop (mapping : InteractionMapping) (pm : List (ℕ × Int)) (nPoints : ℕ)
    (faceLabelIds : List Int) (labels : List Store.Label)
    (originalHeader : Option String) : ℕ → Heap → List (ℕ × ℕ) → Heap
  | _, h, [] => h
  | i, h, (o, c) :: rest =>
      attachLoop mapping pm nPoints faceLabelIds labels originalHeader (i + 1)
        (attachMeshData mapping pm nPoints faceLabelIds labels originalHeader (i == 0) h o c)
        rest

/-- `exportGLB(originalScene, interactionMapping, points, fileName, faces,
labels, originalHeader)`: validation, deep clone, parallel mesh collection,
length check, attachment loop.  The external GLTFExporter/Draco encoding and
the browser download (Steps 5-6) are outside the repository; the function
returns the final heap together with the cloned scene's uuids (the scene that
is handed to the exporter) or the thrown error's message. -/
def exportGLB (h : Heap) (originalScene : Option (List ℕ))
    (interactionMapping : Option InteractionMapping) (points : List Store.Point)
    (faces : Option (List Store.Face)) (labels : List Store.Label)
    (originalHeader : Option String) : Heap × Except String (List ℕ) :=
  match originalScene with
  | none => (h, .error "Missing original scene object")
  | some sceneIds =>
    match interactionMapping with
    | none => (h, .error "Missing interaction mapping object")
    | some mapping =>
      let pm := pointLabelMap points
      let faceLabelIds := faceLabelIdsOf faces
      let h2 := (cloneScene h sceneIds).1
      let cloneIds := (cloneScene h sceneIds).2
      let originalMeshes :=
        sceneIds.filter (fun id => ((hLookup h2 id).getD defaultNode).isMesh)
      let clonedMeshes :=
        cloneIds.filter (fun id => ((hLookup h2 id).getD defaultNode).isMesh)
      if originalMeshes.length ≠ clonedMeshes.length then
        (h2, .error "Parallel traversal failed: mesh count mismatch")
      else
        (attachLoop mapping pm points.length faceLabelIds labels originalHeader 0 h2
          (originalMeshes.zip clonedMeshes), .ok cloneIds)

/-- The mesh pairs (original uuid, clone uuid) produced by the parallel
traversal, with clone uuids allocated from `k` over all scene nodes but only
mesh-bearing nodes collected (proof infrastructure for the theorems below). -/
def meshPairs (h : Heap) : ℕ → List ℕ → List (ℕ × ℕ)
  | _, [] => []
  | k, id :: ids =>
      if ((hLookup h id).getD defaultNode).isMesh
      then (id, k) :: meshPairs h (k + 1) ids
      else meshPairs h (k + 1) ids

/-- The face-label arrays attached to the mesh-bearing nodes of a scene, in
traversal order (a missing attachment reads as the empty array). -/
def clonedMeshFaceLabels (h : Heap) (ids : List ℕ) : List (List Int) :=
  (ids.filter (fun id => ((hLookup h id).getD defaultNode).isMesh)).map
    (fun id => ((hLookup h id).bind (fun n => n.userData.faceLabels)).getD [])

/-- The interaction map's partition invariant: the ranges are consecutive
from `lo` and exhaust `[lo, total)` in order. -/
def RangesPartition : ℕ → List IRange → ℕ → Prop
  | lo, [], total => lo = total
  | lo, r :: rs, total => r.start = lo ∧ lo ≤ r.stop ∧ RangesPartition r.stop rs total

end Glb

namespace Sel

lemma mem_collectGo (pred : Store.Face → Bool) :
    ∀ (fs : List Store.Face) (k x : ℕ),
      x ∈ collectSelectedFacesGo pred k fs ↔
        ∃ j f, fs.get? j = some f ∧ pred f = true ∧ x = k + j := by
  intro fs
  induction fs with
  | nil => intro k x; simp [collectSelectedFacesGo]
  | cons f fs ih =>
    intro k x
    cases hcase : pred f with
    | false =>
        simp only [collectSelectedFacesGo, hcase, Bool.false_eq_true, if_false, ih]
        constructor
        · rintro ⟨j, g, hj, hg, rfl⟩
          exact ⟨j + 1, g, hj, hg, by omega⟩
        · rintro ⟨j, g, hj, hg, rfl⟩
          cases j with
          | zero =>
              simp only [List.get?_cons_zero, Option.some.injEq] at hj
              subst hj
              rw [hcase] at hg
              exact absurd hg (by simp)
          | succ j => exact ⟨j, g, hj, hg, by omega⟩
    | true =>
        simp only [collectSelectedFacesGo, hcase, eq_self_iff_true, if_true, List.mem_cons, ih]
        constructor
        · rintro (rfl | ⟨j, g, hj, hg, rfl⟩)
          · exact ⟨0, f, rfl, hcase, by omega⟩
          · exact ⟨j + 1, g, hj, hg, by omega⟩
        · rintro ⟨j, g, hj, hg, rfl⟩
          cases j with
          | zero =>
              left
              omega
          | succ j => right; exact ⟨j, g, hj, hg, by omega⟩

end Sel

/-! ### Claim C4: ENCLOSED selection versus TOUCHING selection -/

/-- C4 counterexample: on a face whose `indices` list is empty (producible by
the PLY parser when a face row carries no vertex list), ENCLOSED selects the
face vacuously while TOUCHING does not, so the ENCLOSED result is not a
subset of the TOUCHING result on the same inputs. -/
theorem enclosed_not_subset_touching_cex :
    ¬ (Sel.calculateSelectedFaces [{ indices := [] }] [] [0] "ENCLOSED" ⊆
        Sel.calculateSelectedFaces [{ indices := [] }] [] [0] "TOUCHING") := by
  decide

/-- C4 (amended): for faces that each have at least one vertex index, the
ENCLOSED selection is a subset of the TOUCHING selection on the same faces,
labels and selected-point set. -/
theorem enclosed_subset_touching (faces : List Store.Face) (labels : List Store.Label)
    (sel : List ℕ) (hne : ∀ f ∈ faces, f.indices ≠ []) :
    Sel.calculateSelectedFaces faces labels sel "ENCLOSED" ⊆
      Sel.calculateSelectedFaces faces labels sel "TOUCHING" := by
  unfold Sel.calculateSelectedFaces
  by_cases hguard : (faces.isEmpty || sel.isEmpty) = true
  · simp [hguard]
  · have hguard' : (faces.isEmpty || sel.isEmpty) = false := by
      simpa using hguard
    simp only [hguard', Bool.false_eq_true, if_false]
    intro x hx
    rw [List.mem_toFinset, Sel.mem_collectGo] at hx
    rw [List.mem_toFinset, Sel.mem_collectGo]
    obtain ⟨j, f, hj, hpred, rfl⟩ := hx
    refine ⟨j, f, hj, ?_, rfl⟩
    have hfmem : f ∈ faces := List.get?_mem hj
    have hind : f.indices ≠ [] := hne f hfmem
    simp only [Bool.and_eq_true] at hpred ⊢
    refine ⟨hpred.1, ?_⟩
    have henc : Sel.faceMatchesMode sel "ENCLOSED" f = true := hpred.2
    unfold Sel.faceMatchesMode at henc ⊢
    have h1 : ¬ (("ENCLOSED" : String) = "TOUCHING") := by decide
    rw [if_neg h1, if_pos rfl] at henc
    rw [if_pos rfl]
    rw [List.all_eq_true] at henc
    rw [List.any_eq_true]
    obtain ⟨idx, hidx⟩ := List.exists_mem_of_ne_nil _ hind
    exact ⟨idx, hidx, henc idx hidx⟩

/-- C4 witness: the amended subset statement applied to a concrete face with
three vertex indices. -/
theorem enclosed_subset_touching_witness :
    (∀ f ∈ ([{ indices := [0, 1, 2] }] : List Store.Face), f.indices ≠ []) ∧
    Sel.calculateSelectedFaces [{ indices := [0, 1, 2] }] [] [0] "ENCLOSED" ⊆
      Sel.calculateSelectedFaces [{ indices := [0, 1, 2] }] [] [0] "TOUCHING" :=
  ⟨by decide, enclosed_subset_touching [{ indices := [0, 1, 2] }] [] [0] (by decide)⟩

/-! ### Claim C10: empty point selection yields empty face selection -/

/-- C10: for every faces array, labels array and selection mode, an empty
selected-point set makes `calculateSelectedFaces` return the empty face set
(the `selectedPoints.size === 0` guard fires before any mode test, so no face
is selected vacuously under ENCLOSED). -/
theorem calculateSelectedFaces_empty_selection (faces : List Store.Face)
    (labels : List Store.Label) (mode : String) :
    Sel.calculateSelectedFaces faces labels [] mode = ∅ := by
  simp [Sel.calculateSelectedFaces]

/-! ### Claim C8: color-channel normalization -/

/-- C8 counterexample: `-1/2` is `≤ 1` but is not passed through unchanged:
the final clamp maps it to 0. -/
theorem normalizeColorValue_cex :
    (-(1 : ℚ) / 2 ≤ 1) ∧ Ply.normalizeColorValue (-(1 : ℚ) / 2) ≠ -(1 : ℚ) / 2 := by
  constructor
  · norm_num
  · norm_num [Ply.normalizeColorValue]

/-- C8 (amended): values greater than 1 are scaled by 1/255 and clamped into
[0,1]; values in [0,1] pass through unchanged; negative values are clamped to
0 (they do not pass through). -/
theorem normalizeColorValue_spec (v : ℚ) :
    (1 < v → Ply.normalizeColorValue v = min (v * (1 / 255)) 1) ∧
    (0 ≤ v → v ≤ 1 → Ply.normalizeColorValue v = v) ∧
    (v < 0 → Ply.normalizeColorValue v = 0) := by
  refine ⟨?_, ?_, ?_⟩
  · intro h1
    unfold Ply.normalizeColorValue
    have hn : ¬ (v * (1 / 255) < 0) := by push_neg; linarith
    rcases le_or_lt (v * (1 / 255)) 1 with hle | hgt
    · simp only [h1, if_true, if_neg hn]
      rw [if_neg (not_lt.mpr hle), min_eq_left hle]
    · simp only [h1, if_true, if_neg hn]
      rw [if_pos hgt, min_eq_right hgt.le]
  · intro h0 h1
    unfold Ply.normalizeColorValue
    rw [if_neg (not_lt.mpr h1), if_neg (not_lt.mpr h0), if_neg (not_lt.mpr h1)]
  · intro hv
    unfold Ply.normalizeColorValue
    have : ¬ (1 : ℚ) < v := by linarith
    rw [if_neg this, if_pos hv]

/-- C8 witness: the amended statement applied at the concrete inputs 510
(scaled and clamped branch) and 1/2 (pass-through branch). -/
theorem normalizeColorValue_spec_witness :
    Ply.normalizeColorValue 510 = min ((510 : ℚ) * (1 / 255)) 1 ∧
      Ply.normalizeColorValue (1 / 2) = 1 / 2 :=
  ⟨(normalizeColorValue_spec 510).1 (by norm_num),
   (normalizeColorValue_spec (1 / 2)).2.1 (by norm_num) (by norm_num)⟩

/-! ### Claim C1: the LOAD_FILE_DATA command -/

/-- C1 counterexample: after LOAD_FILE_DATA the point selection is NOT reset
(it is still `[0]`), the manual-face-selection flag is NOT cleared (still
`true`), and the undo history is NOT left unchanged (the previous points
array is pushed onto it). -/
theorem load_file_data_cex :
    (Store.storeReducer loadPriorState (.loadFileData loadPayload0)).selectedPoints = [0] ∧
    (Store.storeReducer loadPriorState (.loadFileData loadPayload0)).isManualFaceSelection = true ∧
    (Store.storeReducer loadPriorState (.loadFileData loadPayload0)).history ≠
      loadPriorState.history := by
  decide

/-- C1 (amended): LOAD_FILE_DATA replaces the document's points, faces and
labels with the payload's, resets only the face selection to empty, leaves
`selectedPoints` and `isManualFaceSelection` unchanged, and appends the prior
points array to the undo history (loading IS undoable). -/
theorem load_file_data_spec (s : Store.AnnotationState) (p : Store.LoadPayload) :
    (Store.storeReducer s (.loadFileData p)).points = p.points ∧
    (Store.storeReducer s (.loadFileData p)).labels = p.labels.getD [] ∧
    (Store.storeReducer s (.loadFileData p)).faces =
      (if p.faces.isSome && !(p.faces.getD []).isEmpty
        then (p.faces.getD []).map Store.normalizePayloadFace else []) ∧
    (Store.storeReducer s (.loadFileData p)).selectedFaces = ∅ ∧
    (Store.storeReducer s (.loadFileData p)).selectedPoints = s.selectedPoints ∧
    (Store.storeReducer s (.loadFileData p)).isManualFaceSelection = s.isManualFaceSelection ∧
    (Store.storeReducer s (.loadFileData p)).history = s.history ++ [s.points] :=
  ⟨rfl, rfl, rfl, rfl, rfl, rfl, rfl⟩

/-! ### Claim C6: the INVERT_SELECTION command -/

/-- C6 evaluation at the failing input: INVERT_SELECTION does complement the
point selection over [0, totalPoints) and the face selection over
[0, totalFaces), but it leaves `isManualFaceSelection` at `false` instead of
setting it to `true`, so automatic face-selection re-derivation is NOT
suppressed (and immediately overwrites the inverted face selection). -/
theorem invert_selection_eval :
    (Store.storeReducer invertPriorState .invertSelection).selectedPoints = [0] ∧
    (Store.storeReducer invertPriorState .invertSelection).selectedFaces = {0} ∧
    (Store.storeReducer invertPriorState .invertSelection).isManualFaceSelection = false := by
  decide

/-! ### Claim C7: boundedness of the undo history -/

lemma history_applyLabels_step (s : Store.AnnotationState) (idxs : List ℕ) (L : Int) :
    (Store.storeReducer s (.applyLabels idxs L)).history = s.history ++ [s.points] := rfl

lemma history_replicate_applyLabels (idxs : List ℕ) (L : Int) :
    ∀ (n : ℕ) (s : Store.AnnotationState),
      ((List.replicate n (Store.Action.applyLabels idxs L)).foldl Store.storeReducer s).history.length
        = s.history.length + n := by
  intro n
  induction n with
  | zero => intro s; simp
  | succ n ih =>
      intro s
      rw [List.replicate_succ, List.foldl_cons, ih, history_applyLabels_step]
      simp only [List.length_append, List.length_singleton]
      omega

/-- C7 counterexample: there is no cap on the points-snapshot undo history:
for any purported cap, running cap+1 APPLY_LABELS commands from the initial
state leaves a history of length cap+1. -/
theorem undo_history_unbounded :
    ¬ ∃ cap : ℕ, ∀ (s : Store.AnnotationState) (acts : List Store.Action),
        ((acts.foldl Store.storeReducer s).history).length ≤ cap := by
  rintro ⟨cap, h⟩
  have hv := h Store.initialState (List.replicate (cap + 1) (.applyLabels [] 0))
  rw [history_replicate_applyLabels] at hv
  have h0 : Store.initialState.history.length = 0 := rfl
  omega

/-- C7 (amended): the points undo history is unbounded: every APPLY_LABELS
command appends exactly one snapshot, so after n such commands the history
length is the initial length plus n (no cap is ever applied; the 10-entry cap
in the source applies to the separate selection history only). -/
theorem undo_history_growth (s : Store.AnnotationState) (idxs : List ℕ) (L : Int) (n : ℕ) :
    ((List.replicate n (Store.Action.applyLabels idxs L)).foldl Store.storeReducer s).history.length
      = s.history.length + n :=
  history_replicate_applyLabels idxs L n s


/-! ### Claim C2: statistics invariant under label-assignment commands -/

namespace Store

lemma statVal_nil (k : Int) : statVal [] k = 0 := rfl

lemma statVal_cons (k₀ : Int) (v₀ : ℕ) (t : List (Int × ℕ)) (k : Int) :
    statVal ((k₀, v₀) :: t) k = if k₀ = k then v₀ else statVal t k := by
  unfold statVal statLookup
  by_cases h : k₀ = k
  · rw [List.find?_cons_of_pos _ (by simp [h]), if_pos h]
    rfl
  · rw [List.find?_cons_of_neg _ (by simp [h]), if_neg h]

lemma sumStats_nil : sumStats [] = 0 := rfl

lemma sumStats_cons (k₀ : Int) (v₀ : ℕ) (t : List (Int × ℕ)) :
    sumStats ((k₀, v₀) :: t) = v₀ + sumStats t := by
  simp [sumStats]

lemma keysNodup_nil : keysNodup [] := by simp [keysNodup]

lemma keysNodup_cons (k₀ : Int) (v₀ : ℕ) (t : List (Int × ℕ)) :
    keysNodup ((k₀, v₀) :: t) ↔ (∀ e ∈ t, e.1 ≠ k₀) ∧ keysNodup t := by
  simp only [keysNodup, List.map_cons, List.nodup_cons, List.mem_map]
  constructor
  · rintro ⟨h1, h2⟩
    exact ⟨fun e he hk => h1 ⟨e, he, hk⟩, h2⟩
  · rintro ⟨h1, h2⟩
    exact ⟨fun ⟨e, he, hk⟩ => h1 e he hk, h2⟩

lemma statVal_eq_zero_of_not_mem (t : List (Int × ℕ)) (k : Int)
    (h : ∀ e ∈ t, e.1 ≠ k) : statVal t k = 0 := by
  unfold statVal statLookup
  rw [List.find?_eq_none.mpr (fun e he => by simpa using h e he)]
  rfl

lemma statErase_nil (k : Int) : statErase [] k = [] := rfl

lemma statErase_cons (k₀ : Int) (v₀ : ℕ) (t : List (Int × ℕ)) (k : Int) :
    statErase ((k₀, v₀) :: t) k =
      if k₀ = k then statErase t k else (k₀, v₀) :: statErase t k := by
  by_cases h : k₀ = k <;> simp [statErase, List.filter_cons, h]

lemma statErase_of_not_mem (t : List (Int × ℕ)) (k : Int)
    (h : ∀ e ∈ t, e.1 ≠ k) : statErase t k = t := by
  unfold statErase
  rw [List.filter_eq_self.mpr (fun e he => by simpa using h e he)]

lemma mem_statErase (t : List (Int × ℕ)) (k : Int) :
    ∀ e ∈ statErase t k, e ∈ t := by
  intro e he
  exact (List.mem_filter.mp he).1

lemma statErase_spec (k : Int) :
    ∀ (m : List (Int × ℕ)), keysNodup m →
      statVal (statErase m k) k = 0 ∧
      (∀ k', k' ≠ k → statVal (statErase m k) k' = statVal m k') ∧
      keysNodup (statErase m k) ∧
      sumStats (statErase m k) + statVal m k = sumStats m := by
  intro m
  induction m with
  | nil => intro _; refine ⟨rfl, fun k' _ => rfl, keysNodup_nil, rfl⟩
  | cons e t ih =>
      intro hnd
      obtain ⟨k₀, v₀⟩ := e
      obtain ⟨hk₀, hndt⟩ := (keysNodup_cons k₀ v₀ t).mp hnd
      obtain ⟨ih1, ih2, ih3, ih4⟩ := ih hndt
      by_cases h : k₀ = k
      · subst h
        have hkt : ∀ e ∈ t, e.1 ≠ k₀ := hk₀
        rw [statErase_cons, if_pos rfl, statErase_of_not_mem t k₀ hkt]
        refine ⟨statVal_eq_zero_of_not_mem t k₀ hkt, ?_, hndt, ?_⟩
        · intro k' hk'
          rw [statVal_cons, if_neg (fun hh => hk' hh.symm)]
        · rw [statVal_cons, if_pos rfl, sumStats_cons]
          omega
      · rw [statErase_cons, if_neg h]
        refine ⟨?_, ?_, ?_, ?_⟩
        · rw [statVal_cons, if_neg h, ih1]
        · intro k' hk'
          rw [statVal_cons, statVal_cons]
          by_cases hk0' : k₀ = k'
          · rw [if_pos hk0', if_pos hk0']
          · rw [if_neg hk0', if_neg hk0', ih2 k' hk']
        · rw [keysNodup_cons]
          exact ⟨fun e he => hk₀ e (mem_statErase t k e he), ih3⟩
        · rw [sumStats_cons, statVal_cons, if_neg h, sumStats_cons]
          omega

lemma map_keep_of_ne (t : List (Int × ℕ)) (k : Int) (v : ℕ)
    (h : ∀ e ∈ t, e.1 ≠ k) :
    t.map (fun e => if e.1 = k then (k, v) else e) = t := by
  induction t with
  | nil => rfl
  | cons e t ih =>
      rw [List.map_cons, if_neg (h e (List.mem_cons_self e t)),
        ih (fun x hx => h x (List.mem_cons_of_mem e hx))]

lemma statSet_cons_self (k : Int) (v₀ : ℕ) (t : List (Int × ℕ)) (v : ℕ)
    (h : ∀ e ∈ t, e.1 ≠ k) :
    statSet ((k, v₀) :: t) k v = (k, v) :: t := by
  unfold statSet
  rw [List.find?_cons_of_pos _ (by simp)]
  simp only [Option.isSome_some, if_true, List.map_cons]
  rw [map_keep_of_ne t k v h]

lemma statSet_cons_ne (k₀ : Int) (v₀ : ℕ) (t : List (Int × ℕ)) (k : Int) (v : ℕ)
    (h : k₀ ≠ k) :
    statSet ((k₀, v₀) :: t) k v = (k₀, v₀) :: statSet t k v := by
  unfold statSet
  rw [List.find?_cons_of_neg _ (by simp [h])]
  by_cases hf : (t.find? (fun e => e.1 = k)).isSome
  · rw [if_pos hf, if_pos hf, List.map_cons, if_neg h]
  · rw [if_neg hf, if_neg hf, List.cons_append]

lemma keys_statSet (t : List (Int × ℕ)) (k : Int) (v : ℕ) :
    ∀ e ∈ statSet t k v, e.1 ∈ t.map Prod.fst ∨ e.1 = k := by
  intro e he
  unfold statSet at he
  by_cases hf : (t.find? (fun x => x.1 = k)).isSome
  · rw [if_pos hf] at he
    obtain ⟨x, hx, hxe⟩ := List.mem_map.mp he
    by_cases hxk : x.1 = k
    · right; rw [← hxe, if_pos hxk]
    · left; rw [← hxe, if_neg hxk]; exact List.mem_map_of_mem Prod.fst hx
  · rw [if_neg hf] at he
    rcases List.mem_append.mp he with h1 | h1
    · left; exact List.mem_map_of_mem Prod.fst h1
    · right
      simp only [List.mem_singleton] at h1
      rw [h1]

lemma statSet_spec (k : Int) (v : ℕ) :
    ∀ (m : List (Int × ℕ)), keysNodup m →
      statVal (statSet m k v) k = v ∧
      (∀ k', k' ≠ k → statVal (statSet m k v) k' = statVal m k') ∧
      keysNodup (statSet m k v) ∧
      sumStats (statSet m k v) + statVal m k = sumStats m + v := by
  intro m
  induction m with
  | nil =>
      intro _
      have hs : statSet [] k v = [(k, v)] := rfl
      rw [hs]
      refine ⟨by rw [statVal_cons, if_pos rfl], ?_, ?_, ?_⟩
      · intro k' hk'
        rw [statVal_cons, if_neg (fun hh => hk' hh.symm)]
      · rw [keysNodup_cons]; exact ⟨by simp, keysNodup_nil⟩
      · rw [sumStats_cons, sumStats_nil, statVal_nil]
        omega
  | cons e t ih =>
      intro hnd
      obtain ⟨k₀, v₀⟩ := e
      obtain ⟨hk₀, hndt⟩ := (keysNodup_cons k₀ v₀ t).mp hnd
      by_cases h : k₀ = k
      · subst h
        rw [statSet_cons_self k₀ v₀ t v hk₀]
        refine ⟨by rw [statVal_cons, if_pos rfl], ?_, ?_, ?_⟩
        · intro k' hk'
          rw [statVal_cons, statVal_cons, if_neg (fun hh => hk' hh.symm),
            if_neg (fun hh => hk' hh.symm)]
        · rw [keysNodup_cons]; exact ⟨hk₀, hndt⟩
        · rw [sumStats_cons, statVal_cons, if_pos rfl, sumStats_cons]
          omega
      · rw [statSet_cons_ne k₀ v₀ t k v h]
        obtain ⟨ih1, ih2, ih3, ih4⟩ := ih hndt
        refine ⟨by rw [statVal_cons, if_neg h, ih1], ?_, ?_, ?_⟩
        · intro k' hk'
          rw [statVal_cons, statVal_cons]
          by_cases hk0' : k₀ = k'
          · rw [if_pos hk0', if_pos hk0']
          · rw [if_neg hk0', if_neg hk0', ih2 k' hk']
        · rw [keysNodup_cons]
          refine ⟨?_, ih3⟩
          intro e he hh
          rcases keys_statSet t k v e he with h1 | h1
          · obtain ⟨x, hx, hxe⟩ := List.mem_map.mp h1
            exact hk₀ x hx (hxe.trans hh)
          · exact h (hh.symm.trans h1)
        · rw [sumStats_cons, statVal_cons, if_neg h, sumStats_cons]
          omega

end Store

namespace Store

lemma statInc_spec (m : List (Int × ℕ)) (k : Int) (h : keysNodup m) :
    statVal (statInc m k) k = statVal m k + 1 ∧
    (∀ k', k' ≠ k → statVal (statInc m k) k' = statVal m k') ∧
    keysNodup (statInc m k) ∧
    sumStats (statInc m k) = sumStats m + 1 := by
  have hdef : statInc m k = statSet m k (statVal m k + 1) := rfl
  rw [hdef]
  obtain ⟨h1, h2, h3, h4⟩ := statSet_spec k (statVal m k + 1) m h
  exact ⟨h1, h2, h3, by omega⟩

lemma statLookup_eq_some_statVal (m : List (Int × ℕ)) (k : Int)
    (hpos : 1 ≤ statVal m k) : statLookup m k = some (statVal m k) := by
  unfold statVal at hpos ⊢
  cases hl : statLookup m k with
  | none => rw [hl] at hpos; simp at hpos
  | some w => rfl

lemma statDec_eq_of_lookup (m : List (Int × ℕ)) (k : Int) (w : ℕ)
    (hw : statLookup m k = some w) (hw1 : 1 ≤ w) :
    statDec m k = if w - 1 = 0 then statErase m k else statSet m k (w - 1) := by
  unfold statDec
  rw [hw]
  have hne : ¬ (w = 0) := by omega
  show (let v := (if w = 0 then 1 else w) - 1;
    if v = 0 then statErase m k else statSet m k v) = _
  rw [if_neg hne]

lemma statDec_spec (m : List (Int × ℕ)) (k : Int) (h : keysNodup m)
    (hpos : 1 ≤ statVal m k) :
    statVal (statDec m k) k + 1 = statVal m k ∧
    (∀ k', k' ≠ k → statVal (statDec m k) k' = statVal m k') ∧
    keysNodup (statDec m k) ∧
    sumStats (statDec m k) + 1 = sumStats m := by
  rw [statDec_eq_of_lookup m k (statVal m k) (statLookup_eq_some_statVal m k hpos) hpos]
  by_cases h1 : statVal m k - 1 = 0
  · rw [if_pos h1]
    obtain ⟨e1, e2, e3, e4⟩ := statErase_spec k m h
    exact ⟨by omega, e2, e3, by omega⟩
  · rw [if_neg h1]
    obtain ⟨s1, s2, s3, s4⟩ := statSet_spec k (statVal m k - 1) m h
    exact ⟨by omega, s2, s3, by omega⟩

lemma cntL_nil (K : Int) : cntL K [] = 0 := rfl

lemma cntL_cons (K : Int) (o : Option Int) (t : List (Option Int)) :
    cntL K (o :: t) = (if o = some K then 1 else 0) + cntL K t := rfl

lemma cntL_set (K : Int) :
    ∀ (l : List (Option Int)) (i : ℕ) (v : Option Int), i < l.length →
      cntL K (l.set i v) + (if l.get? i = some (some K) then 1 else 0)
        = cntL K l + (if v = some K then 1 else 0) := by
  intro l
  induction l with
  | nil => intro i v h; simp at h
  | cons o t ih =>
      intro i v h
      cases i with
      | zero =>
          simp only [List.set_cons_zero, List.get?_cons_zero, cntL_cons, Option.some.injEq]
          split_ifs <;> omega
      | succ i =>
          simp only [List.set_cons_succ, List.get?_cons_succ, cntL_cons]
          have := ih i v (by simpa using h)
          omega

lemma cntL_pos (K : Int) :
    ∀ (l : List (Option Int)) (i : ℕ), l.get? i = some (some K) → 1 ≤ cntL K l := by
  intro l
  induction l with
  | nil => intro i hi; simp at hi
  | cons o t ih =>
      intro i hi
      cases i with
      | zero =>
          simp only [List.get?_cons_zero, Option.some.injEq] at hi
          rw [cntL_cons, hi, if_pos rfl]
          omega
      | succ i =>
          rw [cntL_cons]
          have := ih i (by simpa using hi)
          omega

lemma mapWithIndexGo_get? (f : ℕ → α → β) :
    ∀ (l : List α) (k j : ℕ), (mapWithIndexGo f k l).get? j = (l.get? j).map (f (k + j)) := by
  intro l
  induction l with
  | nil => intro k j; simp [mapWithIndexGo]
  | cons a t ih =>
      intro k j
      cases j with
      | zero => simp [mapWithIndexGo]
      | succ j =>
          simp only [mapWithIndexGo, List.get?_cons_succ, ih (k + 1) j]
          have hk : k + 1 + j = k + (j + 1) := by omega
          rw [hk]

lemma mapWithIndexGo_length (f : ℕ → α → β) :
    ∀ (l : List α) (k : ℕ), (mapWithIndexGo f k l).length = l.length := by
  intro l
  induction l with
  | nil => intro k; rfl
  | cons a t ih => intro k; simp [mapWithIndexGo, ih]

lemma mapWithIndex_length (f : ℕ → α → β) (l : List α) :
    (mapWithIndex f l).length = l.length :=
  mapWithIndexGo_length f l 0

lemma get?_set' (v : α) :
    ∀ (l : List α) (i j : ℕ),
      (l.set i v).get? j = if i = j then (l.get? j).map (fun _ => v) else l.get? j := by
  intro l
  induction l with
  | nil => intro i j; cases i <;> cases j <;> simp
  | cons a t ih =>
      intro i j
      cases i with
      | zero =>
          cases j with
          | zero => simp
          | succ j => simp
      | succ i =>
          cases j with
          | zero => simp
          | succ j => simpa using ih i j

lemma contains_eq_mem (l : List ℕ) (a : ℕ) : l.contains a = true ↔ a ∈ l := by
  induction l with
  | nil => simp
  | cons b t ih => simp [List.contains_cons, ih]

lemma setAllL_get? (L : Int) :
    ∀ (idxs : List ℕ) (lbls : List (Option Int)) (j : ℕ),
      (setAllL lbls idxs L).get? j =
        if idxs.contains j then (lbls.get? j).map (fun _ => some L) else lbls.get? j := by
  intro idxs
  induction idxs with
  | nil => intro lbls j; simp [setAllL]
  | cons i rest ih =>
      intro lbls j
      have hstep : setAllL lbls (i :: rest) L = setAllL (lbls.set i (some L)) rest L := rfl
      rw [hstep, ih]
      by_cases hj : rest.contains j = true
      · have hcons : (i :: rest).contains j = true := by
          simp only [List.contains_cons, Bool.or_eq_true]
          right; exact hj
        rw [if_pos hj, if_pos hcons, get?_set']
        split_ifs with hij
        · cases lbls.get? j <;> rfl
        · rfl
      · rw [if_neg hj, get?_set']
        by_cases hij : i = j
        · rw [if_pos hij, if_pos]
          simp [List.contains_cons, hij]
        · rw [if_neg hij, if_neg]
          simp only [List.contains_cons, Bool.or_eq_true]
          push_neg
          constructor
          · simpa using fun hh => hij hh.symm
          · exact hj

lemma setAllL_length (L : Int) :
    ∀ (idxs : List ℕ) (lbls : List (Option Int)),
      (setAllL lbls idxs L).length = lbls.length := by
  intro idxs
  induction idxs with
  | nil => intro lbls; rfl
  | cons i rest ih =>
      intro lbls
      have hstep : setAllL lbls (i :: rest) L = setAllL (lbls.set i (some L)) rest L := rfl
      rw [hstep, ih, List.length_set]

lemma mapWithIndex_proj {α : Type} (g : α → Option Int) (u : α → α) (L : Int)
    (hgu : ∀ a, g (u a) = some L) (idxs : List ℕ) (l : List α) :
    (mapWithIndex (fun i a => if idxs.contains i then u a else a) l).map g
      = setAllL (l.map g) idxs L := by
  apply List.ext_get?
  intro j
  rw [List.get?_map, mapWithIndex, mapWithIndexGo_get?, setAllL_get?, List.get?_map]
  simp only [Nat.zero_add]
  cases hl : l.get? j with
  | none => simp
  | some a =>
      by_cases hc : idxs.contains j = true
      · have hm : j ∈ idxs := (contains_eq_mem idxs j).mp hc
        simp [hc, hm, hgu a]
      · have hm : j ∉ idxs := fun hmem => hc ((contains_eq_mem idxs j).mpr hmem)
        simp [hc, hm]

end Store

namespace Store

lemma statUpdate_step (tracked : Int → Bool) (L : Int) (lbls : List (Option Int)) (i : ℕ)
    (m : List (Int × ℕ)) (d : Int) (hi : i < lbls.length)
    (hnd : keysNodup m) (hco : StatsMapCoherent tracked m lbls) :
    keysNodup (statUpdate tracked ((lbls.get? i).getD none) (some L) (m, d)).1 ∧
    StatsMapCoherent tracked (statUpdate tracked ((lbls.get? i).getD none) (some L) (m, d)).1
      (lbls.set i (some L)) ∧
    ((sumStats (statUpdate tracked ((lbls.get? i).getD none) (some L) (m, d)).1 : Int)
      - (statUpdate tracked ((lbls.get? i).getD none) (some L) (m, d)).2
      = (sumStats m : Int) - d) := by
  obtain ⟨o, ho⟩ : ∃ o, lbls.get? i = some o := by
    cases hg : lbls.get? i with
    | none => exact absurd (List.get?_eq_none.mp hg) (by omega)
    | some o => exact ⟨o, rfl⟩
  rw [ho]
  simp only [Option.getD_some]
  rcases o with _ | ov
  · -- old label is null/undefined: no decrement
    by_cases htrL : tracked L = true
    · have hred : statUpdate tracked none (some L) (m, d) = (statInc m L, d + 1) := by
        simp [statUpdate, htrL]
      rw [hred]
      dsimp only
      obtain ⟨s1, s2, s3, s4⟩ := statInc_spec m L hnd
      refine ⟨s3, ?_, ?_⟩
      · intro K hK
        have hcoK := hco K hK
        have hc := cntL_set K lbls i (some L) hi
        rw [ho] at hc
        rcases eq_or_ne L K with rfl | hLK
        · simp only [Option.some.injEq, reduceCtorEq, if_false, eq_self_iff_true, if_true] at hc
          rw [s1]
          omega
        · rw [s2 K (fun hh => hLK hh.symm)]
          simp only [Option.some.injEq, reduceCtorEq, if_false, if_neg hLK] at hc
          omega
      · rw [s4]
        omega
    · have hred : statUpdate tracked none (some L) (m, d) = (m, d) := by
        simp [statUpdate, htrL]
      rw [hred]
      dsimp only
      refine ⟨hnd, ?_, by omega⟩
      intro K hK
      have hKL : L ≠ K := fun hh => htrL (hh ▸ hK)
      have hc := cntL_set K lbls i (some L) hi
      rw [ho] at hc
      simp only [Option.some.injEq, reduceCtorEq, if_false, if_neg hKL] at hc
      rw [hco K hK]
      omega
  · -- old label is a concrete integer
    by_cases htrov : tracked ov = true
    · have hpos : 1 ≤ statVal m ov := by
        rw [hco ov htrov]
        exact cntL_pos ov lbls i ho
      obtain ⟨d1, d2, d3, d4⟩ := statDec_spec m ov hnd hpos
      by_cases htrL : tracked L = true
      · have hred : statUpdate tracked (some ov) (some L) (m, d)
            = (statInc (statDec m ov) L, d - 1 + 1) := by
          simp [statUpdate, htrov, htrL]
        rw [hred]
        dsimp only
        obtain ⟨i1, i2, i3, i4⟩ := statInc_spec (statDec m ov) L d3
        refine ⟨i3, ?_, by omega⟩
        intro K hK
        have hcoK := hco K hK
        have hc := cntL_set K lbls i (some L) hi
        rw [ho] at hc
        rcases eq_or_ne L K with rfl | hLK
        · rcases eq_or_ne ov L with rfl | hovK
          · simp only [Option.some.injEq, eq_self_iff_true, if_true] at hc
            rw [i1]
            omega
          · have e2 := d2 L (fun hh => hovK hh.symm)
            simp only [Option.some.injEq, if_neg hovK, eq_self_iff_true, if_true] at hc
            rw [i1]
            omega
        · have e1 := i2 K (fun hh => hLK hh.symm)
          rcases eq_or_ne ov K with rfl | hovK
          · simp only [Option.some.injEq, eq_self_iff_true, if_true, if_neg hLK] at hc
            rw [e1]
            omega
          · have e2 := d2 K (fun hh => hovK hh.symm)
            simp only [Option.some.injEq, if_neg hovK, if_neg hLK] at hc
            rw [e1, e2]
            omega
      · have hred : statUpdate tracked (some ov) (some L) (m, d)
            = (statDec m ov, d - 1) := by
          simp [statUpdate, htrov, htrL]
        rw [hred]
        dsimp only
        refine ⟨d3, ?_, by omega⟩
        intro K hK
        have hcoK := hco K hK
        have hKL : L ≠ K := fun hh => htrL (hh ▸ hK)
        have hc := cntL_set K lbls i (some L) hi
        rw [ho] at hc
        rcases eq_or_ne ov K with rfl | hovK
        · simp only [Option.some.injEq, eq_self_iff_true, if_true, if_neg hKL] at hc
          omega
        · have e2 := d2 K (fun hh => hovK hh.symm)
          simp only [Option.some.injEq, if_neg hovK, if_neg hKL] at hc
          rw [e2]
          omega
    · -- old label untracked (0, or -1 for faces): no decrement
      by_cases htrL : tracked L = true
      · have hred : statUpdate tracked (some ov) (some L) (m, d) = (statInc m L, d + 1) := by
          simp [statUpdate, htrov, htrL]
        rw [hred]
        dsimp only
        obtain ⟨s1, s2, s3, s4⟩ := statInc_spec m L hnd
        refine ⟨s3, ?_, ?_⟩
        · intro K hK
          have hcoK := hco K hK
          have hovK : ov ≠ K := fun hh => htrov (hh ▸ hK)
          have hc := cntL_set K lbls i (some L) hi
          rw [ho] at hc
          rcases eq_or_ne L K with rfl | hLK
          · simp only [Option.some.injEq, if_neg hovK, eq_self_iff_true, if_true] at hc
            rw [s1]
            omega
          · rw [s2 K (fun hh => hLK hh.symm)]
            simp only [Option.some.injEq, if_neg hovK, if_neg hLK] at hc
            omega
        · rw [s4]
          omega
      · have hred : statUpdate tracked (some ov) (some L) (m, d) = (m, d) := by
          simp [statUpdate, htrov, htrL]
        rw [hred]
        dsimp only
        refine ⟨hnd, ?_, by omega⟩
        intro K hK
        have hovK : ov ≠ K := fun hh => htrov (hh ▸ hK)
        have hKL : L ≠ K := fun hh => htrL (hh ▸ hK)
        have hc := cntL_set K lbls i (some L) hi
        rw [ho] at hc
        simp only [Option.some.injEq, if_neg hovK, if_neg hKL] at hc
        rw [hco K hK]
        omega

end Store

namespace Store

lemma foldl_congr_mem {α β : Type _} (l : List α) (f g : β → α → β) :
    ∀ b : β, (∀ (b' : β) (a : α), a ∈ l → f b' a = g b' a) → l.foldl f b = l.foldl g b := by
  induction l with
  | nil => intro b _; rfl
  | cons a t ih =>
      intro b h
      rw [List.foldl_cons, List.foldl_cons, h b a (List.mem_cons_self a t)]
      exact ih _ (fun b' x hx => h b' x (List.mem_cons_of_mem a hx))

lemma bind_proj_get? {α : Type} (g : α → Option Int) (l : List α) (i : ℕ) :
    (l.get? i).bind g = ((l.map g).get? i).getD none := by
  rw [List.get?_map]
  cases hl : l.get? i with
  | none => rfl
  | some a => rfl

lemma statFold_cons (tracked : Int → Bool) (L : Int) (lbls : List (Option Int))
    (i : ℕ) (rest : List ℕ) (acc : List (Int × ℕ) × Int) :
    statFold tracked L lbls (i :: rest) acc
      = statFold tracked L lbls rest
          (statUpdate tracked ((lbls.get? i).getD none) (some L) acc) := rfl

lemma statFold_congr (tracked : Int → Bool) (L : Int) :
    ∀ (idxs : List ℕ) (lbls lbls' : List (Option Int)) (acc : List (Int × ℕ) × Int),
      (∀ i ∈ idxs, lbls.get? i = lbls'.get? i) →
      statFold tracked L lbls idxs acc = statFold tracked L lbls' idxs acc := by
  intro idxs
  induction idxs with
  | nil => intro _ _ _ _; rfl
  | cons i rest ih =>
      intro lbls lbls' acc h
      rw [statFold_cons, statFold_cons, h i (List.mem_cons_self i rest)]
      exact ih lbls lbls' _ (fun j hj => h j (List.mem_cons_of_mem i hj))

lemma statFold_spec (tracked : Int → Bool) (L : Int) :
    ∀ (idxs : List ℕ) (lbls : List (Option Int)) (m : List (Int × ℕ)) (d : Int),
      idxs.Nodup → (∀ i ∈ idxs, i < lbls.length) →
      keysNodup m → StatsMapCoherent tracked m lbls →
      keysNodup (statFold tracked L lbls idxs (m, d)).1 ∧
      StatsMapCoherent tracked (statFold tracked L lbls idxs (m, d)).1 (setAllL lbls idxs L) ∧
      ((sumStats (statFold tracked L lbls idxs (m, d)).1 : Int)
          - (statFold tracked L lbls idxs (m, d)).2
        = (sumStats m : Int) - d) := by
  intro idxs
  induction idxs with
  | nil =>
      intro lbls m d _ _ hnd hco
      exact ⟨hnd, hco, rfl⟩
  | cons i rest ih =>
      intro lbls m d hnodup hin hnd hco
      obtain ⟨hni, hndrest⟩ := List.nodup_cons.mp hnodup
      obtain ⟨h1, h2, h3⟩ :=
        statUpdate_step tracked L lbls i m d (hin i (List.mem_cons_self i rest)) hnd hco
      have hswap : statFold tracked L lbls (i :: rest) (m, d)
          = statFold tracked L (lbls.set i (some L)) rest
              (statUpdate tracked ((lbls.get? i).getD none) (some L) (m, d)) := by
        rw [statFold_cons]
        apply statFold_congr
        intro j hj
        rw [get?_set', if_neg (fun hh => hni (by rw [hh]; exact hj))]
      rw [hswap]
      have hin' : ∀ j ∈ rest, j < (lbls.set i (some L)).length := by
        intro j hj
        rw [List.length_set]
        exact hin j (List.mem_cons_of_mem i hj)
      have ihs := ih (lbls.set i (some L))
        (statUpdate tracked ((lbls.get? i).getD none) (some L) (m, d)).1
        (statUpdate tracked ((lbls.get? i).getD none) (some L) (m, d)).2
        hndrest hin' h1 h2
      rw [Prod.mk.eta] at ihs
      exact ⟨ihs.1, ihs.2.1, ihs.2.2.trans h3⟩

lemma get?_isSome_of_lt {α : Type} (l : List α) (i : ℕ) (h : i < l.length) :
    ∃ o, l.get? i = some o := by
  cases hg : l.get? i with
  | none => exact absurd (List.get?_eq_none.mp hg) (by omega)
  | some o => exact ⟨o, rfl⟩

lemma applyLabelsStats_eq_statFold (st : AnnotationState) (idxs : List ℕ) (L : Int)
    (hin : ∀ i ∈ idxs, i < st.points.length) :
    applyLabelsStats st idxs L
      = statFold pointTracked L (st.points.map Point.labelId) idxs
          ((st.labelInfo.getD (defaultPointInfo st)).labelStats, 0) := by
  unfold applyLabelsStats statFold
  apply foldl_congr_mem
  intro acc i hi
  have hold : (st.points.get? i).bind Point.labelId
      = ((st.points.map Point.labelId).get? i).getD none :=
    bind_proj_get? Point.labelId st.points i
  have hproj : (applyLabelsNewPoints st idxs L).map Point.labelId
      = setAllL (st.points.map Point.labelId) idxs L :=
    mapWithIndex_proj Point.labelId _ L (fun _ => rfl) idxs st.points
  have hnew : ((applyLabelsNewPoints st idxs L).get? i).bind Point.labelId = some L := by
    rw [bind_proj_get? Point.labelId, hproj, setAllL_get?,
      if_pos ((contains_eq_mem idxs i).mpr hi)]
    obtain ⟨o, ho⟩ := get?_isSome_of_lt (st.points.map Point.labelId) i
      (by rw [List.length_map]; exact hin i hi)
    rw [ho]
    rfl
  rw [hold, hnew]

lemma applyFacesStats_eq_statFold (st : AnnotationState) (idxs : List ℕ) (L : Int)
    (hin : ∀ i ∈ idxs, i < st.faces.length) :
    applyFacesStats st idxs L
      = statFold faceTracked L (st.faces.map Face.labelId) idxs
          ((st.labelInfo.getD (defaultFaceInfo st)).faceLabelStats, 0) := by
  unfold applyFacesStats statFold
  apply foldl_congr_mem
  intro acc i hi
  have hold : (st.faces.get? i).bind Face.labelId
      = ((st.faces.map Face.labelId).get? i).getD none :=
    bind_proj_get? Face.labelId st.faces i
  have hproj : (applyFacesNewFaces st idxs L).map Face.labelId
      = setAllL (st.faces.map Face.labelId) idxs L :=
    mapWithIndex_proj Face.labelId _ L (fun _ => rfl) idxs st.faces
  have hnew : ((applyFacesNewFaces st idxs L).get? i).bind Face.labelId = some L := by
    rw [bind_proj_get? Face.labelId, hproj, setAllL_get?,
      if_pos ((contains_eq_mem idxs i).mpr hi)]
    obtain ⟨o, ho⟩ := get?_isSome_of_lt (st.faces.map Face.labelId) i
      (by rw [List.length_map]; exact hin i hi)
    rw [ho]
    rfl
  rw [hold, hnew]

lemma applyLabels_coherent (st : AnnotationState) (idxs : List ℕ) (L : Int)
    (hst : StatsCoherent st) (hnodup : idxs.Nodup)
    (hin : ∀ i ∈ idxs, i < st.points.length) :
    StatsCoherent (applyLabelsCase st idxs L) := by
  obtain ⟨info, hinfo, hknd, hfknd, hsum, htot, hmap, hfsum, hftot, hfmap⟩ := hst
  have hcur : st.labelInfo.getD (defaultPointInfo st) = info := by rw [hinfo]; rfl
  have hin' : ∀ i ∈ idxs, i < (st.points.map Point.labelId).length := by
    intro i hi
    rw [List.length_map]
    exact hin i hi
  have hfold := applyLabelsStats_eq_statFold st idxs L hin
  rw [hcur] at hfold
  obtain ⟨f1, f2, f3⟩ := statFold_spec pointTracked L idxs (st.points.map Point.labelId)
    info.labelStats 0 hnodup hin' hknd hmap
  rw [← hfold] at f1 f2 f3
  have hproj : (applyLabelsNewPoints st idxs L).map Point.labelId
      = setAllL (st.points.map Point.labelId) idxs L :=
    mapWithIndex_proj Point.labelId _ L (fun _ => rfl) idxs st.points
  refine ⟨_, rfl, ?_, ?_, ?_, ?_, ?_, ?_, ?_, ?_⟩
  · show keysNodup (applyLabelsStats st idxs L).1
    exact f1
  · show keysNodup (st.labelInfo.getD (defaultPointInfo st)).faceLabelStats
    rw [hcur]
    exact hfknd
  · show (sumStats (applyLabelsStats st idxs L).1 : Int)
      = (st.labelInfo.getD (defaultPointInfo st)).labeledCount + (applyLabelsStats st idxs L).2
    rw [hcur]
    omega
  · show ((st.labelInfo.getD (defaultPointInfo st)).labeledCount
        + (applyLabelsStats st idxs L).2)
      + ((st.labelInfo.getD (defaultPointInfo st)).unlabeledCount
        - (applyLabelsStats st idxs L).2)
      = ((applyLabelsNewPoints st idxs L).length : Int)
    rw [hcur]
    have hlen : (applyLabelsNewPoints st idxs L).length = st.points.length :=
      mapWithIndex_length _ _
    rw [hlen]
    omega
  · show StatsMapCoherent pointTracked (applyLabelsStats st idxs L).1
      ((applyLabelsNewPoints st idxs L).map Point.labelId)
    rw [hproj]
    exact f2
  · show (sumStats (st.labelInfo.getD (defaultPointInfo st)).faceLabelStats : Int)
      = (st.labelInfo.getD (defaultPointInfo st)).faceLabeledCount
    rw [hcur]
    exact hfsum
  · show (st.labelInfo.getD (defaultPointInfo st)).faceLabeledCount
      + (st.labelInfo.getD (defaultPointInfo st)).faceUnlabeledCount
      = (st.faces.length : Int)
    rw [hcur]
    exact hftot
  · show StatsMapCoherent faceTracked
      (st.labelInfo.getD (defaultPointInfo st)).faceLabelStats
      (st.faces.map Face.labelId)
    rw [hcur]
    exact hfmap

lemma applyFaces_coherent (st : AnnotationState) (idxs : List ℕ) (L : Int)
    (hst : StatsCoherent st) (hnodup : idxs.Nodup)
    (hin : ∀ i ∈ idxs, i < st.faces.length) :
    StatsCoherent (applyLabelToFacesCase st idxs L) := by
  unfold applyLabelToFacesCase
  by_cases hmesh : st.hasMesh
  · rw [if_neg (by simp [hmesh])]
    obtain ⟨info, hinfo, hknd, hfknd, hsum, htot, hmap, hfsum, hftot, hfmap⟩ := hst
    have hcur : st.labelInfo.getD (defaultFaceInfo st) = info := by rw [hinfo]; rfl
    have hin' : ∀ i ∈ idxs, i < (st.faces.map Face.labelId).length := by
      intro i hi
      rw [List.length_map]
      exact hin i hi
    have hfold := applyFacesStats_eq_statFold st idxs L hin
    rw [hcur] at hfold
    obtain ⟨f1, f2, f3⟩ := statFold_spec faceTracked L idxs (st.faces.map Face.labelId)
      info.faceLabelStats 0 hnodup hin' hfknd hfmap
    rw [← hfold] at f1 f2 f3
    have hproj : (applyFacesNewFaces st idxs L).map Face.labelId
        = setAllL (st.faces.map Face.labelId) idxs L :=
      mapWithIndex_proj Face.labelId _ L (fun _ => rfl) idxs st.faces
    refine ⟨_, rfl, ?_, ?_, ?_, ?_, ?_, ?_, ?_, ?_⟩
    · show keysNodup (st.labelInfo.getD (defaultFaceInfo st)).labelStats
      rw [hcur]
      exact hknd
    · show keysNodup (applyFacesStats st idxs L).1
      exact f1
    · show (sumStats (st.labelInfo.getD (defaultFaceInfo st)).labelStats : Int)
        = (st.labelInfo.getD (defaultFaceInfo st)).labeledCount
      rw [hcur]
      exact hsum
    · show (st.labelInfo.getD (defaultFaceInfo st)).labeledCount
        + (st.labelInfo.getD (defaultFaceInfo st)).unlabeledCount
        = (st.points.length : Int)
      rw [hcur]
      exact htot
    · show StatsMapCoherent pointTracked
        (st.labelInfo.getD (defaultFaceInfo st)).labelStats
        (st.points.map Point.labelId)
      rw [hcur]
      exact hmap
    · show (sumStats (applyFacesStats st idxs L).1 : Int)
        = (st.labelInfo.getD (defaultFaceInfo st)).faceLabeledCount
          + (applyFacesStats st idxs L).2
      rw [hcur]
      omega
    · show ((st.labelInfo.getD (defaultFaceInfo st)).faceLabeledCount
          + (applyFacesStats st idxs L).2)
        + ((st.labelInfo.getD (defaultFaceInfo st)).faceUnlabeledCount
          - (applyFacesStats st idxs L).2)
        = ((applyFacesNewFaces st idxs L).length : Int)
      rw [hcur]
      have hlen : (applyFacesNewFaces st idxs L).length = st.faces.length :=
        mapWithIndex_length _ _
      rw [hlen]
      omega
    · show StatsMapCoherent faceTracked (applyFacesStats st idxs L).1
        ((applyFacesNewFaces st idxs L).map Face.labelId)
      rw [hproj]
      exact f2
  · rw [if_pos (by simp [hmesh])]
    exact ⟨_, (hst.choose_spec.1 : st.labelInfo = _), hst.choose_spec.2⟩

end Store

namespace Store

lemma applyLabelToFacesCase_points (st : AnnotationState) (idxs : List ℕ) (L : Int) :
    (applyLabelToFacesCase st idxs L).points = st.points := by
  unfold applyLabelToFacesCase
  split_ifs <;> rfl

lemma applyLabelToFacesCase_faces_length (st : AnnotationState) (idxs : List ℕ) (L : Int) :
    (applyLabelToFacesCase st idxs L).faces.length = st.faces.length := by
  unfold applyLabelToFacesCase
  split_ifs
  · rfl
  · exact mapWithIndex_length _ _

lemma labelCmds_coherent :
    ∀ (cmds : List Action) (st : AnnotationState),
      StatsCoherent st →
      (∀ a ∈ cmds, WfCmd st.points.length st.faces.length a) →
      StatsCoherent (cmds.foldl storeReducer st) := by
  intro cmds
  induction cmds with
  | nil => intro st h _; exact h
  | cons a rest ih =>
      intro st hco hwf
      have hwa := hwf a (List.mem_cons_self a rest)
      rw [List.foldl_cons]
      cases a with
      | applyLabels idxs L =>
          apply ih _ (applyLabels_coherent st idxs L hco hwa.1 hwa.2)
          intro b hb
          show WfCmd (applyLabelsCase st idxs L).points.length
            (applyLabelsCase st idxs L).faces.length b
          have hlen1 : (applyLabelsCase st idxs L).points.length
              = st.points.length := mapWithIndex_length _ _
          have hlen2 : (applyLabelsCase st idxs L).faces.length
              = st.faces.length := rfl
          rw [hlen1, hlen2]
          exact hwf b (List.mem_cons_of_mem _ hb)
      | applyLabelToFaces idxs L =>
          apply ih _ (applyFaces_coherent st idxs L hco hwa.1 hwa.2)
          intro b hb
          show WfCmd (applyLabelToFacesCase st idxs L).points.length
            (applyLabelToFacesCase st idxs L).faces.length b
          rw [applyLabelToFacesCase_points st idxs L,
            applyLabelToFacesCase_faces_length st idxs L]
          exact hwf b (List.mem_cons_of_mem _ hb)
      | setPoints p => exact hwa.elim
      | loadFileData p => exact hwa.elim
      | undo => exact hwa.elim
      | setSelectedPoints p => exact hwa.elim
      | clearSelection => exact hwa.elim
      | invertSelection => exact hwa.elim
      | undoSelection => exact hwa.elim
      | updateSelectedFaces f b => exact hwa.elim

end Store

/-- C2 counterexample: a document produced by a codec decode can violate the
statistics invariant after a single label assignment.  Loading a GLB-shaped
payload whose only point is pre-labeled (from a `_label_id` attribute) and
which carries no label statistics leaves `labelInfo` absent; APPLY_LABELS then
starts from the defensive all-zero statistics, so relabeling the point leaves
`labeledCount = 0` while the stats buckets sum to 1. -/
theorem stats_invariant_cex : ¬ Store.StatsInvariant c2CexState := by
  rintro ⟨info, hinfo, hsum, -, -, -⟩
  have he : c2CexState.labelInfo
      = some { labelStats := [(7, 1)], faceLabelStats := [], labeledCount := 0,
               unlabeledCount := 1, faceLabeledCount := 0, faceUnlabeledCount := 0 } := by
    decide
  rw [he] at hinfo
  obtain rfl := Option.some.inj hinfo
  simp [Store.sumStats] at hsum

/-- C2 (amended): for a document whose label statistics are coherent on load —
`labelInfo` present, counters satisfying the invariant, and every tracked
stats bucket equal to the actual per-label point/face count, as the
point-cloud decoder's statistics pass produces — the statistics invariant
holds after any sequence of APPLY_LABELS / APPLY_LABEL_TO_FACES commands
whose index payloads are duplicate-free and in range. -/
theorem stats_invariant_label_commands (st : Store.AnnotationState)
    (cmds : List Store.Action) (hco : Store.StatsCoherent st)
    (hwf : ∀ a ∈ cmds, Store.WfCmd st.points.length st.faces.length a) :
    Store.StatsInvariant (cmds.foldl Store.storeReducer st) := by
  obtain ⟨info, h1, -, -, h3, h4, -, h6, h7, -⟩ :=
    Store.labelCmds_coherent cmds st hco hwf
  exact ⟨info, h1, h3, h4, h6, h7⟩

/-- C2 witness: the amended statement applied to a concrete coherently loaded
one-point document and one relabeling command. -/
theorem stats_invariant_label_commands_witness :
    Store.StatsInvariant
      (([Store.Action.applyLabels [0] 7]).foldl Store.storeReducer c2WitnessState) := by
  apply stats_invariant_label_commands
  · refine ⟨_, rfl, ?_, ?_, ?_, ?_, ?_, ?_, ?_, ?_⟩
    · unfold Store.keysNodup; decide
    · unfold Store.keysNodup; decide
    · decide
    · decide
    · intro K hK
      have hmaps : c2WitnessState.points.map Store.Point.labelId = [some 5] := rfl
      rw [hmaps]
      rcases eq_or_ne K 5 with rfl | h5
      · decide
      · rw [Store.statVal_cons, if_neg (fun hh => h5 hh.symm), Store.statVal_nil,
          Store.cntL_cons, Store.cntL_nil,
          if_neg (fun hh => h5 (Option.some.inj hh).symm)]
    · decide
    · decide
    · intro K hK
      rfl
  · intro a ha
    rw [List.mem_singleton] at ha
    subst ha
    refine ⟨by decide, ?_⟩
    intro i hi
    rw [List.mem_singleton] at hi
    subst hi
    decide

/-! ### Claim C5: exportGLB never mutates the original scene -/

namespace Glb

lemma hLookup_append_left : ∀ (h t : Heap) (id : ℕ),
    id ∈ h.map (fun e => e.1) → hLookup (h ++ t) id = hLookup h id := by
  intro h
  induction h with
  | nil => intro t id hid; simp at hid
  | cons e h ih =>
      intro t id hid
      unfold hLookup
      by_cases he : e.1 = id
      · rw [List.cons_append, List.find?_cons_of_pos _ (by simp [he]),
          List.find?_cons_of_pos _ (by simp [he])]
      · rw [List.cons_append, List.find?_cons_of_neg _ (by simp [he]),
          List.find?_cons_of_neg _ (by simp [he])]
        have hid' : id ∈ h.map (fun e => e.1) := by
          rcases List.mem_map.mp hid with ⟨x, hx, hxe⟩
          rcases List.mem_cons.mp hx with rfl | hx'
          · exact absurd hxe he
          · exact List.mem_map.mpr ⟨x, hx', hxe⟩
        exact ih t id hid'

lemma foldr_max_ge : ∀ (l : List ℕ) (x : ℕ), x ∈ l → x ≤ l.foldr max 0 := by
  intro l
  induction l with
  | nil => intro x hx; simp at hx
  | cons a t ih =>
      intro x hx
      simp only [List.foldr_cons]
      rcases List.mem_cons.mp hx with rfl | hx'
      · exact le_max_left _ _
      · exact le_trans (ih x hx') (le_max_right _ _)

lemma key_lt_freshBase (h : Heap) (id : ℕ) (hid : id ∈ h.map (fun e => e.1)) :
    id < freshBase h := by
  have := foldr_max_ge (h.map (fun e => e.1)) id hid
  unfold freshBase
  omega

lemma hUpdate_lookup_ne (h : Heap) (id' : ℕ) (f : SceneNode → SceneNode) (id : ℕ)
    (hne : id ≠ id') :
    hLookup (hUpdate h id' f) id = hLookup h id := by
  unfold hLookup hUpdate
  induction h with
  | nil => rfl
  | cons e t ih =>
      rw [List.map_cons]
      by_cases hei : e.1 = id
      · have hne' : ¬ (e.1 = id') := fun hh => hne (hei.symm.trans hh)
        rw [if_neg hne', List.find?_cons_of_pos _ (by simp [hei]),
          List.find?_cons_of_pos _ (by simp [hei])]
      · by_cases hei' : e.1 = id'
        · rw [if_pos hei', List.find?_cons_of_neg _ (by simp [hei]),
            List.find?_cons_of_neg _ (by simp [hei])]
          exact ih
        · rw [if_neg hei', List.find?_cons_of_neg _ (by simp [hei]),
            List.find?_cons_of_neg _ (by simp [hei])]
          exact ih

lemma hUpdate_lookup_self (h : Heap) (id : ℕ) (f : SceneNode → SceneNode) :
    hLookup (hUpdate h id f) id = (hLookup h id).map f := by
  unfold hLookup hUpdate
  induction h with
  | nil => rfl
  | cons e t ih =>
      rw [List.map_cons]
      by_cases he : e.1 = id
      · rw [if_pos he, List.find?_cons_of_pos _ (by simp [he]),
          List.find?_cons_of_pos _ (by simp [he])]
        rfl
      · rw [if_neg he, List.find?_cons_of_neg _ (by simp [he]),
          List.find?_cons_of_neg _ (by simp [he])]
        exact ih

lemma attachLabelAttr_lookup_ne (pm : List (ℕ × Int)) (nPoints : ℕ) (geom : Geometry)
    (pr : IRange) (h : Heap) (c id : ℕ) (hne : id ≠ c) :
    hLookup (attachLabelAttr pm nPoints geom pr h c) id = hLookup h id := by
  unfold attachLabelAttr
  split_ifs
  · cases geom.positionCount with
    | none => rfl
    | some vc => exact hUpdate_lookup_ne h c _ id hne
  · rfl

lemma attachFaceSlice_lookup_ne (fli : List Int) (fr : IRange) (h : Heap) (c id : ℕ)
    (hne : id ≠ c) :
    hLookup (attachFaceSlice fli fr h c) id = hLookup h id := by
  unfold attachFaceSlice
  split_ifs
  · exact hUpdate_lookup_ne h c _ id hne
  · rfl

lemma attachMeta_lookup_ne (labels : List Store.Label) (header : Option String)
    (isFirst : Bool) (h : Heap) (c id : ℕ) (hne : id ≠ c) :
    hLookup (attachMeta labels header isFirst h c) id = hLookup h id := by
  unfold attachMeta
  split_ifs
  · exact hUpdate_lookup_ne h c _ id hne
  · rfl

lemma attachMeshData_lookup_ne (mapping : InteractionMapping) (pm : List (ℕ × Int))
    (nPoints : ℕ) (fli : List Int) (labels : List Store.Label)
    (header : Option String) (isFirst : Bool) (h : Heap) (o c id : ℕ) (hne : id ≠ c) :
    hLookup (attachMeshData mapping pm nPoints fli labels header isFirst h o c) id
      = hLookup h id := by
  unfold attachMeshData
  cases (hLookup h c).bind (fun n => n.geometry) with
  | none => rfl
  | some geom =>
      cases aLookup mapping.meshToPointRange o with
      | none => rfl
      | some pr =>
          cases aLookup mapping.meshToFaceRange o with
          | none => rfl
          | some fr =>
              rw [attachMeta_lookup_ne _ _ _ _ _ _ hne,
                attachFaceSlice_lookup_ne _ _ _ _ _ hne,
                attachLabelAttr_lookup_ne _ _ _ _ _ _ _ hne]

lemma attachLoop_lookup_ne (mapping : InteractionMapping) (pm : List (ℕ × Int))
    (nPoints : ℕ) (fli : List Int) (labels : List Store.Label)
    (header : Option String) :
    ∀ (pairs : List (ℕ × ℕ)) (i : ℕ) (h : Heap) (id : ℕ),
      (∀ p ∈ pairs, p.2 ≠ id) →
      hLookup (attachLoop mapping pm nPoints fli labels header i h pairs) id
        = hLookup h id := by
  intro pairs
  induction pairs with
  | nil => intro i h id _; rfl
  | cons p rest ih =>
      intro i h id hne
      obtain ⟨o, c⟩ := p
      show hLookup (attachLoop mapping pm nPoints fli labels header (i + 1)
        (attachMeshData mapping pm nPoints fli labels header (i == 0) h o c) rest) id = _
      rw [ih (i + 1) _ id (fun q hq => hne q (List.mem_cons_of_mem _ hq)),
        attachMeshData_lookup_ne mapping pm nPoints fli labels header (i == 0) h o c id
          (fun hh => hne (o, c) (List.mem_cons_self _ _) hh.symm)]

lemma cloneNodesGo_key_ge (h : Heap) :
    ∀ (ids : List ℕ) (k : ℕ) (e : ℕ × SceneNode),
      e ∈ cloneNodesGo h k ids → k ≤ e.1 := by
  intro ids
  induction ids with
  | nil => intro k e he; simp [cloneNodesGo] at he
  | cons id ids ih =>
      intro k e he
      rcases List.mem_cons.mp he with rfl | he'
      · exact le_refl _
      · exact le_trans (by omega) (ih (k + 1) e he')

end Glb

/-- C5: exportGLB never mutates the original scene: for every heap of scene
nodes, every original node (every uuid present in the heap before the call —
in particular every node of the original scene graph, with its geometry
attributes and its userData bag) is unchanged by the export, whether it
returns a buffer or an error; label attributes and metadata are attached only
to the freshly allocated clone nodes. -/
theorem export_glb_preserves_originals (h : Glb.Heap) (scene : Option (List ℕ))
    (mapping : Option Glb.InteractionMapping) (points : List Store.Point)
    (faces : Option (List Store.Face)) (labels : List Store.Label)
    (header : Option String) (id : ℕ)
    (hid : id ∈ h.map (fun e => e.1)) :
    Glb.hLookup (Glb.exportGLB h scene mapping points faces labels header).1 id
      = Glb.hLookup h id := by
  cases scene with
  | none => rfl
  | some sceneIds =>
      cases mapping with
      | none => rfl
      | some m =>
          have hbase : id < Glb.freshBase h := Glb.key_lt_freshBase h id hid
          have happ : Glb.hLookup (Glb.cloneScene h sceneIds).1 id = Glb.hLookup h id :=
            Glb.hLookup_append_left h _ id hid
          simp only [Glb.exportGLB]
          split_ifs
          · exact happ
          · rw [Glb.attachLoop_lookup_ne]
            · exact happ
            · intro p hp
              have hc2 := (List.mem_zip hp).2
              have hcid : p.2 ∈ (Glb.cloneScene h sceneIds).2 :=
                List.mem_of_mem_filter hc2
              obtain ⟨e, he, hee⟩ := List.mem_map.mp hcid
              have := Glb.cloneNodesGo_key_ge h sceneIds (Glb.freshBase h) e he
              omega

/-- C5 witness: the frame property evaluated on a one-node scene heap. -/
theorem export_glb_preserves_originals_witness :
    Glb.hLookup
      (Glb.exportGLB [(3, { isMesh := true, geometry := some { positionCount := some 1 } })]
        (some [3])
        (some { meshToPointRange := [(3, ⟨0, 1⟩)], meshToFaceRange := [(3, ⟨0, 1⟩)] })
        [{ position := (0, 0, 0), color := (1, 1, 1), labelId := some 2 }]
        (some [{ indices := [0, 0, 0], labelId := some 1 }]) [] none).1 3
      = Glb.hLookup [(3, { isMesh := true, geometry := some { positionCount := some 1 } })] 3 :=
  export_glb_preserves_originals _ _ _ _ _ _ _ 3 (by decide)

/-! ### Claim C3: exportGLB face-label slices concatenate to the global array -/

namespace Glb

lemma setGlobalMeta_faceLabels (labels : List Store.Label) (header : Option String)
    (n : SceneNode) :
    (setGlobalMeta labels header n).userData.faceLabels = n.userData.faceLabels := by
  unfold setGlobalMeta
  cases header <;> split_ifs <;> rfl

lemma setGlobalMeta_isMesh (labels : List Store.Label) (header : Option String)
    (n : SceneNode) : (setGlobalMeta labels header n).isMesh = n.isMesh := by
  unfold setGlobalMeta
  cases header <;> split_ifs <;> rfl

lemma attachLabelAttr_lookup_self_userData (pm : List (ℕ × Int)) (nPoints : ℕ)
    (g : Geometry) (pr : IRange) (h : Heap) (c : ℕ) (n : SceneNode)
    (hn : hLookup h c = some n) :
    ∃ n1, hLookup (attachLabelAttr pm nPoints g pr h c) c = some n1
      ∧ n1.userData = n.userData := by
  unfold attachLabelAttr
  split_ifs
  · cases g.positionCount with
    | none => exact ⟨n, hn, rfl⟩
    | some vc =>
        refine ⟨setLabelAttr (buildLabelIds pm pr nPoints vc) n, ?_, rfl⟩
        rw [hUpdate_lookup_self, hn]
        rfl
  · exact ⟨n, hn, rfl⟩

lemma attachFaceSlice_lookup_self (fli : List Int) (fr : IRange) (h : Heap) (c : ℕ)
    (hne : fli ≠ []) :
    hLookup (attachFaceSlice fli fr h c) c
      = (hLookup h c).map
          (setFaceLabels ((fli.drop fr.start).take (fr.stop - fr.start))) := by
  unfold attachFaceSlice
  rw [if_pos (by simpa using hne)]
  exact hUpdate_lookup_self h c _

lemma attachMeta_faceLabels (labels : List Store.Label) (header : Option String)
    (isFirst : Bool) (h : Heap) (c : ℕ) :
    ((hLookup (attachMeta labels header isFirst h c) c).bind
        (fun n => n.userData.faceLabels))
      = ((hLookup h c).bind (fun n => n.userData.faceLabels)) := by
  unfold attachMeta
  split_ifs
  · rw [hUpdate_lookup_self]
    cases hLookup h c with
    | none => rfl
    | some n => simp [setGlobalMeta_faceLabels]
  · rfl

lemma attachMeshData_faceLabels_self (mapping : InteractionMapping)
    (pm : List (ℕ × Int)) (nPoints : ℕ) (fli : List Int) (labels : List Store.Label)
    (header : Option String) (isFirst : Bool) (h : Heap) (o c : ℕ) (n : SceneNode)
    (g : Geometry) (pr fr : IRange) (hn : hLookup h c = some n)
    (hg : n.geometry = some g) (hpr : aLookup mapping.meshToPointRange o = some pr)
    (hfr : aLookup mapping.meshToFaceRange o = some fr) (hfli : fli ≠ []) :
    ((hLookup (attachMeshData mapping pm nPoints fli labels header isFirst h o c) c).bind
        (fun n => n.userData.faceLabels))
      = some ((fli.drop fr.start).take (fr.stop - fr.start)) := by
  unfold attachMeshData
  rw [hn]
  show ((hLookup (match n.geometry with
    | none => h
    | some geom =>
      match aLookup mapping.meshToPointRange o, aLookup mapping.meshToFaceRange o with
      | some pr, some fr =>
          attachMeta labels header isFirst
            (attachFaceSlice fli fr (attachLabelAttr pm nPoints geom pr h c) c) c
      | _, _ => h) c).bind (fun n => n.userData.faceLabels)) = _
  rw [hg, hpr, hfr]
  obtain ⟨n1, hn1, hud1⟩ := attachLabelAttr_lookup_self_userData pm nPoints g pr h c n hn
  rw [attachMeta_faceLabels, attachFaceSlice_lookup_self fli fr _ c hfli, hn1]
  rfl

lemma hUpdate_getD_isMesh (h : Heap) (id' : ℕ) (f : SceneNode → SceneNode) (id : ℕ)
    (hf : ∀ n, (f n).isMesh = n.isMesh) :
    ((hLookup (hUpdate h id' f) id).getD defaultNode).isMesh
      = ((hLookup h id).getD defaultNode).isMesh := by
  by_cases hid : id = id'
  · subst hid
    rw [hUpdate_lookup_self]
    cases hLookup h id with
    | none => rfl
    | some n => simp [hf]
  · rw [hUpdate_lookup_ne h id' f id hid]

lemma attachMeshData_isMesh (mapping : InteractionMapping) (pm : List (ℕ × Int))
    (nPoints : ℕ) (fli : List Int) (labels : List Store.Label)
    (header : Option String) (isFirst : Bool) (h : Heap) (o c id : ℕ) :
    ((hLookup (attachMeshData mapping pm nPoints fli labels header isFirst h o c) id).getD
        defaultNode).isMesh
      = ((hLookup h id).getD defaultNode).isMesh := by
  unfold attachMeshData
  cases (hLookup h c).bind (fun n => n.geometry) with
  | none => rfl
  | some geom =>
      cases aLookup mapping.meshToPointRange o with
      | none => rfl
      | some pr =>
          cases aLookup mapping.meshToFaceRange o with
          | none => rfl
          | some fr =>
              have h1 : ∀ (hh : Heap),
                  ((hLookup (attachLabelAttr pm nPoints geom pr hh c) id).getD
                      defaultNode).isMesh
                    = ((hLookup hh id).getD defaultNode).isMesh := by
                intro hh
                unfold attachLabelAttr
                split_ifs
                · cases geom.positionCount with
                  | none => rfl
                  | some vc => exact hUpdate_getD_isMesh hh c _ id (fun n => rfl)
                · rfl
              have h2 : ∀ (hh : Heap),
                  ((hLookup (attachFaceSlice fli fr hh c) id).getD defaultNode).isMesh
                    = ((hLookup hh id).getD defaultNode).isMesh := by
                intro hh
                unfold attachFaceSlice
                split_ifs
                · exact hUpdate_getD_isMesh hh c _ id (fun n => rfl)
                · rfl
              have h3 : ∀ (hh : Heap),
                  ((hLookup (attachMeta labels header isFirst hh c) id).getD
                      defaultNode).isMesh
                    = ((hLookup hh id).getD defaultNode).isMesh := by
                intro hh
                unfold attachMeta
                split_ifs
                · exact hUpdate_getD_isMesh hh c _ id (setGlobalMeta_isMesh labels header)
                · rfl
              rw [h3, h2, h1]

lemma attachLoop_isMesh (mapping : InteractionMapping) (pm : List (ℕ × Int))
    (nPoints : ℕ) (fli : List Int) (labels : List Store.Label)
    (header : Option String) :
    ∀ (pairs : List (ℕ × ℕ)) (i : ℕ) (h : Heap) (id : ℕ),
      ((hLookup (attachLoop mapping pm nPoints fli labels header i h pairs) id).getD
          defaultNode).isMesh
        = ((hLookup h id).getD defaultNode).isMesh := by
  intro pairs
  induction pairs with
  | nil => intro i h id; rfl
  | cons p rest ih =>
      intro i h id
      obtain ⟨o, c⟩ := p
      show ((hLookup (attachLoop mapping pm nPoints fli labels header (i + 1)
        (attachMeshData mapping pm nPoints fli labels header (i == 0) h o c) rest) id).getD
          defaultNode).isMesh = _
      rw [ih (i + 1) _ id, attachMeshData_isMesh]

end Glb

namespace Glb

lemma meshPairs_map_fst (h : Heap) : ∀ (ids : List ℕ) (k : ℕ),
    (meshPairs h k ids).map Prod.fst
      = ids.filter (fun id => ((hLookup h id).getD defaultNode).isMesh) := by
  intro ids
  induction ids with
  | nil => intro k; rfl
  | cons id ids ih =>
      intro k
      unfold meshPairs
      by_cases hm : ((hLookup h id).getD defaultNode).isMesh
      · rw [if_pos hm, List.map_cons, ih (k + 1), List.filter_cons, if_pos hm]
      · rw [if_neg hm, ih (k + 1), List.filter_cons, if_neg hm]

lemma meshPairs_mem (h : Heap) : ∀ (ids : List ℕ) (k : ℕ) (q : ℕ × ℕ),
    q ∈ meshPairs h k ids →
      q.1 ∈ ids ∧ ((hLookup h q.1).getD defaultNode).isMesh = true ∧ k ≤ q.2 := by
  intro ids
  induction ids with
  | nil => intro k q hq; exact absurd hq (List.not_mem_nil q)
  | cons id ids ih =>
      intro k q hq
      unfold meshPairs at hq
      by_cases hm : ((hLookup h id).getD defaultNode).isMesh
      · rw [if_pos hm] at hq
        rcases List.mem_cons.mp hq with hq | hq
        · subst hq
          exact ⟨List.mem_cons_self _ _, hm, le_refl _⟩
        · obtain ⟨h1, h2, h3⟩ := ih (k + 1) q hq
          exact ⟨List.mem_cons_of_mem _ h1, h2, by omega⟩
      · rw [if_neg hm] at hq
        obtain ⟨h1, h2, h3⟩ := ih (k + 1) q hq
        exact ⟨List.mem_cons_of_mem _ h1, h2, by omega⟩

lemma meshPairs_snd_nodup (h : Heap) : ∀ (ids : List ℕ) (k : ℕ),
    ((meshPairs h k ids).map (fun q => q.2)).Nodup := by
  intro ids
  induction ids with
  | nil => intro k; simp [meshPairs]
  | cons id ids ih =>
      intro k
      unfold meshPairs
      by_cases hm : ((hLookup h id).getD defaultNode).isMesh
      · rw [if_pos hm, List.map_cons]
        refine List.nodup_cons.mpr ⟨?_, ih (k + 1)⟩
        intro hmem
        obtain ⟨q, hq, hq2⟩ := List.mem_map.mp hmem
        have := (meshPairs_mem h ids (k + 1) q hq).2.2
        omega
      · rw [if_neg hm]
        exact ih (k + 1)

lemma meshPairs_subset_clone (h : Heap) : ∀ (ids : List ℕ) (k : ℕ) (q : ℕ × ℕ),
    q ∈ meshPairs h k ids →
      (q.2, (hLookup h q.1).getD defaultNode) ∈ cloneNodesGo h k ids := by
  intro ids
  induction ids with
  | nil => intro k q hq; exact absurd hq (List.not_mem_nil q)
  | cons id ids ih =>
      intro k q hq
      unfold meshPairs at hq
      unfold cloneNodesGo
      by_cases hm : ((hLookup h id).getD defaultNode).isMesh
      · rw [if_pos hm] at hq
        rcases List.mem_cons.mp hq with hq | hq
        · subst hq
          exact List.mem_cons_self _ _
        · exact List.mem_cons_of_mem _ (ih (k + 1) q hq)
      · rw [if_neg hm] at hq
        exact List.mem_cons_of_mem _ (ih (k + 1) q hq)

lemma cloneNodesGo_keys_nodup (h : Heap) : ∀ (ids : List ℕ) (k : ℕ),
    ((cloneNodesGo h k ids).map (fun e => e.1)).Nodup := by
  intro ids
  induction ids with
  | nil => intro k; simp [cloneNodesGo]
  | cons id ids ih =>
      intro k
      unfold cloneNodesGo
      rw [List.map_cons]
      refine List.nodup_cons.mpr ⟨?_, ih (k + 1)⟩
      intro hmem
      obtain ⟨e, he, he2⟩ := List.mem_map.mp hmem
      have := cloneNodesGo_key_ge h ids (k + 1) e he
      omega

lemma find?_key_of_mem : ∀ (cl : List (ℕ × SceneNode)),
    ((cl.map (fun e => e.1)).Nodup) → ∀ (key : ℕ) (n : SceneNode), (key, n) ∈ cl →
      cl.find? (fun x => x.1 = key) = some (key, n) := by
  intro cl
  induction cl with
  | nil => intro _ key n hmem; exact absurd hmem (List.not_mem_nil _)
  | cons a cl ih =>
      intro hnd key n hmem
      obtain ⟨hnotin, hndrest⟩ := List.nodup_cons.mp hnd
      rcases List.mem_cons.mp hmem with hmem | hmem
      · rw [← hmem]
        exact List.find?_cons_of_pos _ (by simp)
      · have hne : ¬ (a.1 = key) := by
          intro heq
          apply hnotin
          show a.1 ∈ List.map (fun e => e.1) cl
          rw [heq]
          exact List.mem_map.mpr ⟨(key, n), hmem, rfl⟩
        rw [List.find?_cons_of_neg _ (by simpa using hne)]
        exact ih hndrest key n hmem

lemma find?_append_of_none (l₁ l₂ : List (ℕ × SceneNode)) (p : ℕ × SceneNode → Bool)
    (hnone : l₁.find? p = none) : (l₁ ++ l₂).find? p = l₂.find? p := by
  induction l₁ with
  | nil => rfl
  | cons a l₁ ih =>
      have h1 := List.find?_eq_none.mp hnone a (List.mem_cons_self _ _)
      have h2 : l₁.find? p = none := by
        rw [List.find?_eq_none]
        intro x hx
        exact List.find?_eq_none.mp hnone x (List.mem_cons_of_mem _ hx)
      rw [List.cons_append, List.find?_cons_of_neg _ h1]
      exact ih h2

lemma hLookup_append_clone (h : Heap) (sceneIds : List ℕ) (key : ℕ) (n : SceneNode)
    (hmem : (key, n) ∈ cloneNodesGo h (freshBase h) sceneIds) :
    hLookup (h ++ cloneNodesGo h (freshBase h) sceneIds) key = some n := by
  have hge : freshBase h ≤ key := cloneNodesGo_key_ge h sceneIds (freshBase h) (key, n) hmem
  unfold hLookup
  rw [find?_append_of_none]
  · rw [find?_key_of_mem _ (cloneNodesGo_keys_nodup h sceneIds (freshBase h)) key n hmem]
    rfl
  · rw [List.find?_eq_none]
    intro x hx
    have hk := key_lt_freshBase h x.1 (List.mem_map.mpr ⟨x, hx, rfl⟩)
    simp only [decide_eq_true_eq]
    omega

lemma clone_lookup (h : Heap) (sceneIds : List ℕ) (q : ℕ × ℕ)
    (hq : q ∈ meshPairs h (freshBase h) sceneIds) :
    hLookup (h ++ cloneNodesGo h (freshBase h) sceneIds) q.2
      = some ((hLookup h q.1).getD defaultNode) :=
  hLookup_append_clone h sceneIds q.2 _ (meshPairs_subset_clone h sceneIds (freshBase h) q hq)

end Glb

namespace Glb

lemma zip_lookup_of_map_eq {α β : Type} (f : α → Option β) :
    ∀ (A : List α) (B : List β), A.map f = B.map some →
      ∀ p ∈ A.zip B, f p.1 = some p.2 := by
  intro A
  induction A with
  | nil => intro B _ p hp; simp at hp
  | cons a A ih =>
      intro B hmap p hp
      cases B with
      | nil => simp at hp
      | cons b B =>
          simp only [List.map_cons, List.cons.injEq] at hmap
          rcases List.mem_cons.mp hp with hp | hp
          · rw [hp]
            exact hmap.1
          · exact ih B hmap.2 p hp

lemma attachLoop_faceLabels (mapping : InteractionMapping) (pm : List (ℕ × Int))
    (nPoints : ℕ) (fli : List Int) (labels : List Store.Label)
    (header : Option String) (hfli : fli ≠ []) :
    ∀ (prs : List ((ℕ × ℕ) × IRange)) (i : ℕ) (h : Heap) (lo : ℕ),
      (prs.map (fun q => q.1.2)).Nodup →
      (∀ q ∈ prs, ∃ n g, hLookup h q.1.2 = some n ∧ n.geometry = some g) →
      (∀ q ∈ prs, aLookup mapping.meshToFaceRange q.1.1 = some q.2) →
      (∀ q ∈ prs, (aLookup mapping.meshToPointRange q.1.1).isSome) →
      RangesPartition lo (prs.map (fun q => q.2)) fli.length →
      (prs.map (fun q =>
        ((hLookup (attachLoop mapping pm nPoints fli labels header i h
            (prs.map (fun q => q.1))) q.1.2).bind
          (fun n => n.userData.faceLabels)).getD [])).flatten
        = fli.drop lo := by
  intro prs
  induction prs with
  | nil =>
      intro i h lo _ _ _ _ hpart
      have hlo : lo = fli.length := hpart
      rw [hlo]
      simp
  | cons q prs ih =>
      intro i h lo hnd hex hfr hpr hpart
      obtain ⟨⟨o, c⟩, r⟩ := q
      simp only [List.map_cons] at hnd
      obtain ⟨hnotin, hndrest⟩ := List.nodup_cons.mp hnd
      obtain ⟨n, g, hn, hg⟩ := hex _ (List.mem_cons_self _ _)
      have hfrq : aLookup mapping.meshToFaceRange o = some r :=
        hfr _ (List.mem_cons_self _ _)
      obtain ⟨pr, hprq⟩ :=
        Option.isSome_iff_exists.mp (hpr _ (List.mem_cons_self _ _))
      simp only [List.map_cons] at hpart
      obtain ⟨hr0, hr1, hrest⟩ := hpart
      have hcne : ∀ q' ∈ prs, q'.1.2 ≠ c := by
        intro q' hq' heq
        exact hnotin (List.mem_map.mpr ⟨q', hq', heq⟩)
      show (((hLookup (attachLoop mapping pm nPoints fli labels header (i + 1)
          (attachMeshData mapping pm nPoints fli labels header (i == 0) h o c)
          (prs.map (fun q => q.1))) c).bind (fun n => n.userData.faceLabels)).getD []
        :: prs.map (fun q =>
          ((hLookup (attachLoop mapping pm nPoints fli labels header (i + 1)
              (attachMeshData mapping pm nPoints fli labels header (i == 0) h o c)
              (prs.map (fun q => q.1))) q.1.2).bind
            (fun n => n.userData.faceLabels)).getD [])).flatten = fli.drop lo
      rw [List.flatten_cons]
      have hhead : hLookup (attachLoop mapping pm nPoints fli labels header (i + 1)
          (attachMeshData mapping pm nPoints fli labels header (i == 0) h o c)
          (prs.map (fun q => q.1))) c
          = hLookup (attachMeshData mapping pm nPoints fli labels header (i == 0) h o c) c := by
        apply attachLoop_lookup_ne
        intro p hp
        obtain ⟨q', hq', hq'e⟩ := List.mem_map.mp hp
        rw [← hq'e]
        exact hcne q' hq'
      rw [hhead]
      rw [attachMeshData_faceLabels_self mapping pm nPoints fli labels header (i == 0)
        h o c n g pr r hn hg hprq hfrq hfli]
      have hexrest : ∀ q' ∈ prs, ∃ n g,
          hLookup (attachMeshData mapping pm nPoints fli labels header (i == 0) h o c)
            q'.1.2 = some n ∧ n.geometry = some g := by
        intro q' hq'
        obtain ⟨n', g', hn', hg'⟩ := hex q' (List.mem_cons_of_mem _ hq')
        refine ⟨n', g', ?_, hg'⟩
        rw [attachMeshData_lookup_ne mapping pm nPoints fli labels header (i == 0)
          h o c q'.1.2 (hcne q' hq'), hn']
      have hfrrest : ∀ q' ∈ prs, aLookup mapping.meshToFaceRange q'.1.1 = some q'.2 :=
        fun q' hq' => hfr q' (List.mem_cons_of_mem _ hq')
      have hprrest : ∀ q' ∈ prs, (aLookup mapping.meshToPointRange q'.1.1).isSome :=
        fun q' hq' => hpr q' (List.mem_cons_of_mem _ hq')
      rw [ih (i + 1) _ r.stop hndrest hexrest hfrrest hprrest hrest]
      have hdrop : fli.drop r.stop = (fli.drop lo).drop (r.stop - lo) := by
        rw [List.drop_drop]
        congr 1
        omega
      rw [hr0, hdrop, Option.getD_some, List.take_append_drop]

end Glb

namespace Glb

lemma filter_keys_by_content (H : Heap) : ∀ (cl : List (ℕ × SceneNode)),
    (∀ e ∈ cl, hLookup H e.1 = some e.2) →
    (cl.map (fun e => e.1)).filter
        (fun cid => ((hLookup H cid).getD defaultNode).isMesh)
      = (cl.filter (fun e => e.2.isMesh)).map (fun e => e.1) := by
  intro cl
  induction cl with
  | nil => intro _; rfl
  | cons a cl ih =>
      intro hlk
      have ha : hLookup H a.1 = some a.2 := hlk a (List.mem_cons_self _ _)
      rw [List.map_cons, List.filter_cons, List.filter_cons]
      have hcond : ((hLookup H a.1).getD defaultNode).isMesh = a.2.isMesh := by
        rw [ha]
        rfl
      by_cases hm : a.2.isMesh
      · rw [if_pos (by rw [hcond]; exact hm), if_pos hm, List.map_cons,
          ih (fun e he => hlk e (List.mem_cons_of_mem _ he))]
      · rw [if_neg (by rw [hcond]; exact hm), if_neg hm,
          ih (fun e he => hlk e (List.mem_cons_of_mem _ he))]

lemma cloneNodesGo_filter_mesh (h : Heap) : ∀ (ids : List ℕ) (k : ℕ),
    ((cloneNodesGo h k ids).filter (fun e => e.2.isMesh)).map (fun e => e.1)
      = (meshPairs h k ids).map (fun q => q.2) := by
  intro ids
  induction ids with
  | nil => intro k; rfl
  | cons id ids ih =>
      intro k
      unfold cloneNodesGo meshPairs
      rw [List.filter_cons]
      by_cases hm : ((hLookup h id).getD defaultNode).isMesh
      · rw [if_pos hm, if_pos hm, List.map_cons, List.map_cons, ih (k + 1)]
      · rw [if_neg hm, if_neg hm, ih (k + 1)]

end Glb


/-- C3: for a scene whose mesh-bearing nodes' interaction-map face ranges
partition `[0, totalFaces)` in traversal order (and whose mesh nodes have
geometry and recorded point ranges), a successful `exportGLB` attaches to each
cloned mesh the slice of the global face-label array over that node's range,
so the concatenation of the cloned meshes' face-label arrays in traversal
order equals the global face-label array `fs.map (jsOrZero f.labelId)`. -/
theorem export_face_labels_concat (h : Glb.Heap) (sceneIds : List ℕ)
    (mapping : Glb.InteractionMapping) (points : List Store.Point)
    (fs : List Store.Face) (labels : List Store.Label) (header : Option String)
    (rs : List Glb.IRange) (h' : Glb.Heap) (cids : List ℕ)
    (hin : ∀ id ∈ sceneIds, id ∈ h.map (fun e => e.1))
    (hgeom : ∀ id ∈ sceneIds,
      ((Glb.hLookup h id).getD Glb.defaultNode).isMesh = true →
      (((Glb.hLookup h id).getD Glb.defaultNode).geometry).isSome)
    (hprS : ∀ id ∈ sceneIds,
      ((Glb.hLookup h id).getD Glb.defaultNode).isMesh = true →
      (Glb.aLookup mapping.meshToPointRange id).isSome)
    (hrs : (sceneIds.filter
        (fun id => ((Glb.hLookup h id).getD Glb.defaultNode).isMesh)).map
          (Glb.aLookup mapping.meshToFaceRange) = rs.map some)
    (hpart : Glb.RangesPartition 0 rs fs.length)
    (hfs : fs ≠ [])
    (heq : Glb.exportGLB h (some sceneIds) (some mapping) points (some fs) labels
        header = (h', .ok cids)) :
    (Glb.clonedMeshFaceLabels h' cids).flatten
      = fs.map (fun f => Glb.jsOrZero f.labelId) := by
  set cl := Glb.cloneNodesGo h (Glb.freshBase h) sceneIds with hcl
  set h2 := h ++ cl with hh2
  set P := Glb.meshPairs h (Glb.freshBase h) sceneIds with hP
  set fli := Glb.faceLabelIdsOf (some fs) with hfli
  set pm := Glb.pointLabelMap points with hpm
  have hfli_eq : fli = fs.map (fun f => Glb.jsOrZero f.labelId) := by
    rw [hfli]
    show (if fs.isEmpty then [] else fs.map (fun f => Glb.jsOrZero f.labelId)) = _
    rw [if_neg (by simp [List.isEmpty_iff, hfs])]
  have hfli_ne : fli ≠ [] := by
    rw [hfli_eq]
    intro hc
    exact hfs (List.map_eq_nil_iff.mp hc)
  have hfli_len : fli.length = fs.length := by
    rw [hfli_eq, List.length_map]
  have hOM : sceneIds.filter (fun id =>
        ((Glb.hLookup h2 id).getD Glb.defaultNode).isMesh) = P.map Prod.fst := by
    rw [hP, Glb.meshPairs_map_fst]
    apply List.filter_congr
    intro id hid
    show ((Glb.hLookup h2 id).getD Glb.defaultNode).isMesh
      = ((Glb.hLookup h id).getD Glb.defaultNode).isMesh
    rw [hh2, hcl, Glb.hLookup_append_left h _ id (hin id hid)]
  have hclk : ∀ e ∈ cl, Glb.hLookup h2 e.1 = some e.2 := by
    intro e he
    obtain ⟨key, n⟩ := e
    rw [hh2, hcl]
    exact Glb.hLookup_append_clone h sceneIds key n (by rw [← hcl]; exact he)
  have hCM : (cl.map (fun e => e.1)).filter (fun cid =>
        ((Glb.hLookup h2 cid).getD Glb.defaultNode).isMesh)
      = P.map (fun q => q.2) := by
    rw [Glb.filter_keys_by_content _ _ hclk, hcl, hP, Glb.cloneNodesGo_filter_mesh]
  have hlenPrs : P.length = rs.length := by
    have hlen := congrArg List.length hrs
    rw [List.length_map, List.length_map, ← Glb.meshPairs_map_fst h sceneIds
      (Glb.freshBase h), List.length_map, ← hP] at hlen
    exact hlen
  have hlenOM : (sceneIds.filter (fun id =>
        ((Glb.hLookup h2 id).getD Glb.defaultNode).isMesh)).length
      = ((cl.map (fun e => e.1)).filter (fun cid =>
        ((Glb.hLookup h2 cid).getD Glb.defaultNode).isMesh)).length := by
    rw [hOM, hCM, List.length_map, List.length_map]
  have hcsfst : (Glb.cloneScene h sceneIds).1 = h2 := by
    rw [hh2, hcl]
    rfl
  have hcssnd : (Glb.cloneScene h sceneIds).2 = cl.map (fun e => e.1) := by
    rw [hcl]
    rfl
  have hcomp : Glb.exportGLB h (some sceneIds) (some mapping) points (some fs)
        labels header
      = (Glb.attachLoop mapping pm points.length fli labels header 0 h2
          ((sceneIds.filter (fun id =>
            ((Glb.hLookup h2 id).getD Glb.defaultNode).isMesh)).zip
           ((cl.map (fun e => e.1)).filter (fun cid =>
            ((Glb.hLookup h2 cid).getD Glb.defaultNode).isMesh))),
         .ok (cl.map (fun e => e.1))) := by
    show (if _ ≠ _ then _ else _) = _
    rw [hcsfst, hcssnd]
    rw [if_neg (by rw [hlenOM]; exact fun hc => hc rfl)]
  rw [hcomp] at heq
  injection heq with hheap hcid
  have hcids : cids = cl.map (fun e => e.1) := by
    injection hcid with hc
    exact hc.symm
  subst hcids
  rw [← hheap]
  have hzips : (sceneIds.filter (fun id =>
        ((Glb.hLookup h2 id).getD Glb.defaultNode).isMesh)).zip
      ((cl.map (fun e => e.1)).filter (fun cid =>
        ((Glb.hLookup h2 cid).getD Glb.defaultNode).isMesh))
      = (P.zip rs).map (fun q => q.1) := by
    rw [hOM, hCM, List.zip_map', List.map_fst_zip _ _ (le_of_eq hlenPrs)]
    exact List.map_id P
  rw [hzips]
  have hPfst : (P.zip rs).map (fun q => q.1) = P :=
    List.map_fst_zip _ _ (le_of_eq hlenPrs)
  have hPsnd : (P.zip rs).map (fun q => q.2) = rs :=
    List.map_snd_zip _ _ (le_of_eq hlenPrs.symm)
  have hmm' : (P.zip rs).map (fun q => q.1.2) = P.map (fun q => q.2) := by
    have h1 : ((P.zip rs).map (fun q => q.1.2))
        = ((P.zip rs).map (fun q => q.1)).map (fun p => p.2) := by
      rw [List.map_map]
      rfl
    rw [h1, hPfst]
  have hnd' : ((P.zip rs).map (fun q => q.1.2)).Nodup := by
    rw [hmm']
    rw [hP]
    exact Glb.meshPairs_snd_nodup h sceneIds (Glb.freshBase h)
  have hex' : ∀ q ∈ P.zip rs, ∃ n g,
      Glb.hLookup h2 q.1.2 = some n ∧ n.geometry = some g := by
    intro q hq
    have hq1 : q.1 ∈ P := (List.of_mem_zip hq).1
    have hmem := Glb.meshPairs_mem h sceneIds (Glb.freshBase h) q.1
      (by rw [← hP]; exact hq1)
    have hlk := Glb.clone_lookup h sceneIds q.1 (by rw [← hP]; exact hq1)
    obtain ⟨g, hg⟩ := Option.isSome_iff_exists.mp (hgeom q.1.1 hmem.1 hmem.2.1)
    exact ⟨_, g, by rw [hh2, hcl]; exact hlk, hg⟩
  have hrs' : P.map (fun p => Glb.aLookup mapping.meshToFaceRange p.1)
      = rs.map some := by
    have hmapped : (P.map Prod.fst).map (Glb.aLookup mapping.meshToFaceRange)
        = rs.map some := by
      rw [hP, Glb.meshPairs_map_fst]
      exact hrs
    rw [List.map_map] at hmapped
    exact hmapped
  have hfr' : ∀ q ∈ P.zip rs,
      Glb.aLookup mapping.meshToFaceRange q.1.1 = some q.2 :=
    fun q hq => Glb.zip_lookup_of_map_eq _ P rs hrs' q hq
  have hpr' : ∀ q ∈ P.zip rs,
      (Glb.aLookup mapping.meshToPointRange q.1.1).isSome := by
    intro q hq
    have hq1 : q.1 ∈ P := (List.of_mem_zip hq).1
    have hmem := Glb.meshPairs_mem h sceneIds (Glb.freshBase h) q.1
      (by rw [← hP]; exact hq1)
    exact hprS q.1.1 hmem.1 hmem.2.1
  have hpart' : Glb.RangesPartition 0 ((P.zip rs).map (fun q => q.2)) fli.length := by
    rw [hPsnd, hfli_len]
    exact hpart
  have hloop := Glb.attachLoop_faceLabels mapping pm points.length fli labels header
    hfli_ne (P.zip rs) 0 h2 0 hnd' hex' hfr' hpr' hpart'
  unfold Glb.clonedMeshFaceLabels
  have hfc : (cl.map (fun e => e.1)).filter (fun id =>
        ((Glb.hLookup (Glb.attachLoop mapping pm points.length fli labels header 0 h2
          ((P.zip rs).map (fun q => q.1))) id).getD Glb.defaultNode).isMesh)
      = (cl.map (fun e => e.1)).filter (fun id =>
        ((Glb.hLookup h2 id).getD Glb.defaultNode).isMesh) := by
    apply List.filter_congr
    intro id hid
    show ((Glb.hLookup (Glb.attachLoop mapping pm points.length fli labels header 0 h2
        ((P.zip rs).map (fun q => q.1))) id).getD Glb.defaultNode).isMesh
      = ((Glb.hLookup h2 id).getD Glb.defaultNode).isMesh
    exact Glb.attachLoop_isMesh mapping pm points.length fli labels header _ 0 h2 id
  rw [hfc, hCM]
  have hKey : (P.map (fun q => q.2)).map (fun id =>
        ((Glb.hLookup (Glb.attachLoop mapping pm points.length fli labels header 0 h2
          ((P.zip rs).map (fun q => q.1))) id).bind
          (fun n => n.userData.faceLabels)).getD [])
      = (P.zip rs).map (fun q =>
        ((Glb.hLookup (Glb.attachLoop mapping pm points.length fli labels header 0 h2
          ((P.zip rs).map (fun q => q.1))) q.1.2).bind
          (fun n => n.userData.faceLabels)).getD []) := by
    rw [← hmm', List.map_map]
    rfl
  rw [hKey, hloop, List.drop_zero]
  exact hfli_eq

/-- C3 witness: the concatenation property evaluated on a one-mesh scene with
two faces, range `[0, 2)`. -/
theorem export_face_labels_concat_witness :
    (Glb.clonedMeshFaceLabels
      [(1, { isMesh := true, geometry := some { positionCount := some 2 } }),
       (2, { isMesh := true, geometry := some { positionCount := some 2 },
             userData := { faceLabels := some [3, 0] } })] [2]).flatten
      = [({ indices := [0, 1, 0], labelId := some 3 } : Store.Face),
         { indices := [1, 0, 1], labelId := none }].map
          (fun f => Glb.jsOrZero f.labelId) :=
  export_face_labels_concat
    [(1, { isMesh := true, geometry := some { positionCount := some 2 } })] [1]
    { meshToPointRange := [(1, ⟨0, 2⟩)], meshToFaceRange := [(1, ⟨0, 2⟩)] }
    []
    [{ indices := [0, 1, 0], labelId := some 3 },
     { indices := [1, 0, 1], labelId := none }]
    [] none [⟨0, 2⟩]
    [(1, { isMesh := true, geometry := some { positionCount := some 2 } }),
     (2, { isMesh := true, geometry := some { positionCount := some 2 },
           userData := { faceLabels := some [3, 0] } })] [2]
    (by decide) (by decide) (by decide) (by decide)
    ⟨rfl, by omega, rfl⟩ (List.cons_ne_nil _ _) rfl

/-! ### Claim C9: parsePLY on a declared count exceeding the data present -/

namespace Ply

lemma asciiPointAt_none (pF : String → ℚ) (pI : String → Int) (lines : List String)
    (props : List PropDef) (startLine i : ℕ) (h : lines.length ≤ startLine + i) :
    asciiPointAt pF pI lines props startLine i = none := by
  unfold asciiPointAt
  rw [List.get?_eq_none.mpr h]

lemma statsPointsGo_hole : ∀ (l : List (Option PPoint)) (lc : ℕ) (ls : List (Int × ℕ)),
    (none : Option PPoint) ∈ l → statsPointsGo lc ls l = .error .typeErrorCrash := by
  intro l
  induction l with
  | nil => intro lc ls h; exact absurd h (List.not_mem_nil _)
  | cons a l ih =>
      intro lc ls h
      cases a with
      | none => rfl
      | some p =>
          have htail : (none : Option PPoint) ∈ l := by
            rcases List.mem_cons.mp h with h1 | h1
            · exact absurd h1 (by simp)
            · exact h1
          show (match p.labelId with
            | some v => statsPointsGo (lc + 1) (Store.statInc ls v) l
            | none => statsPointsGo lc ls l) = _
          cases p.labelId with
          | some v => exact ih (lc + 1) _ htail
          | none => exact ih lc ls htail

lemma statsFacesGo_hole : ∀ (l : List (Option PFace)) (lc : ℕ) (ls : List (Int × ℕ)),
    (none : Option PFace) ∈ l → statsFacesGo lc ls l = .error .typeErrorCrash := by
  intro l
  induction l with
  | nil => intro lc ls h; exact absurd h (List.not_mem_nil _)
  | cons a l ih =>
      intro lc ls h
      cases a with
      | none => rfl
      | some f =>
          have htail : (none : Option PFace) ∈ l := by
            rcases List.mem_cons.mp h with h1 | h1
            · exact absurd h1 (by simp)
            · exact h1
          show (match f.labelId with
            | some v => if v = -1 then statsFacesGo lc ls l
                else statsFacesGo (lc + 1) (Store.statInc ls v) l
            | none => statsFacesGo lc ls l) = _
          cases f.labelId with
          | some v =>
              show (if v = -1 then statsFacesGo lc ls l
                else statsFacesGo (lc + 1) (Store.statInc ls v) l) = _
              by_cases hv : v = -1
              · rw [if_pos hv]
                exact ih lc ls htail
              · rw [if_neg hv]
                exact ih (lc + 1) _ htail
          | none => exact ih lc ls htail

lemma buildFaces_cons_inv (pF : String → ℚ) (pI : String → Int) (lines : List String)
    (fprops : List PropDef) (fsl : ℕ) (j : ℕ) (rest : List ℕ)
    (fl : List (Option PFace))
    (h : buildFaces pF pI lines fprops fsl (j :: rest) = .ok fl) :
    ∃ x t, fl = x :: t ∧ buildFaces pF pI lines fprops fsl rest = Except.ok t ∧
      (lines.length ≤ fsl + j → x = none) := by
  have hmap : ∀ (x0 : Option PFace) (r : Except PlyError (List (Option PFace))),
      r.map (fun t => x0 :: t) = .ok fl → ∃ t, fl = x0 :: t ∧ r = .ok t := by
    intro x0 r hr
    cases r with
    | error e => exact absurd hr (by simp [Except.map])
    | ok t =>
        refine ⟨t, ?_, rfl⟩
        simp only [Except.map] at hr
        exact (Except.ok.inj hr).symm
  by_cases hb : fsl + j < lines.length
  · cases hg : lines.get? (fsl + j) with
    | none =>
        have := List.get?_eq_none.mp hg
        omega
    | some l0 =>
        unfold buildFaces at h
        rw [if_pos hb, hg] at h
        by_cases he : (l0.trim).isEmpty
        · replace h : (buildFaces pF pI lines fprops fsl rest).map
              (fun t => (none : Option PFace) :: t) = .ok fl := by
            have h2 : (if (l0.trim).isEmpty then
                (buildFaces pF pI lines fprops fsl rest).map
                  (fun t => (none : Option PFace) :: t)
              else match parseFaceProps pF pI fprops 0 (splitWs l0.trim)
                  { indices := [], labelId := none, textureCoords := none,
                    color := none } with
                | Except.error e =>
                    (Except.error e : Except PlyError (List (Option PFace)))
                | Except.ok f => (buildFaces pF pI lines fprops fsl rest).map
                    (fun t => some f :: t)) = .ok fl := h
            rw [if_pos he] at h2
            exact h2
          obtain ⟨t, hfl, hrest⟩ := hmap none _ h
          exact ⟨none, t, hfl, hrest, fun _ => rfl⟩
        · replace h : (match parseFaceProps pF pI fprops 0 (splitWs l0.trim)
              { indices := [], labelId := none, textureCoords := none,
                color := none } with
              | Except.error e =>
                  (Except.error e : Except PlyError (List (Option PFace)))
              | Except.ok f => (buildFaces pF pI lines fprops fsl rest).map
                  (fun t => some f :: t)) = .ok fl := by
            have h2 : (if (l0.trim).isEmpty then
                (buildFaces pF pI lines fprops fsl rest).map
                  (fun t => (none : Option PFace) :: t)
              else match parseFaceProps pF pI fprops 0 (splitWs l0.trim)
                  { indices := [], labelId := none, textureCoords := none,
                    color := none } with
                | Except.error e =>
                    (Except.error e : Except PlyError (List (Option PFace)))
                | Except.ok f => (buildFaces pF pI lines fprops fsl rest).map
                    (fun t => some f :: t)) = .ok fl := h
            rw [if_neg he] at h2
            exact h2
          cases hp : parseFaceProps pF pI fprops 0 (splitWs l0.trim)
              { indices := [], labelId := none, textureCoords := none,
                color := none } with
          | error e =>
              rw [hp] at h
              exact absurd h (by simp)
          | ok f =>
              rw [hp] at h
              replace h : (buildFaces pF pI lines fprops fsl rest).map
                  (fun t => some f :: t) = .ok fl := h
              obtain ⟨t, hfl, hrest⟩ := hmap (some f) _ h
              exact ⟨some f, t, hfl, hrest, fun hc => absurd hc (by omega)⟩
  · unfold buildFaces at h
    rw [if_neg hb] at h
    obtain ⟨t, hfl, hrest⟩ := hmap none _ h
    exact ⟨none, t, hfl, hrest, fun _ => rfl⟩

lemma buildFaces_ok_hole (pF : String → ℚ) (pI : String → Int) (lines : List String)
    (fprops : List PropDef) (fsl : ℕ) :
    ∀ (l : List ℕ) (fl : List (Option PFace)),
      buildFaces pF pI lines fprops fsl l = .ok fl →
      ∀ i ∈ l, lines.length ≤ fsl + i → (none : Option PFace) ∈ fl := by
  intro l
  induction l with
  | nil => intro fl _ i hi; exact absurd hi (List.not_mem_nil i)
  | cons j rest ih =>
      intro fl hok i hi hbound
      obtain ⟨x, t, hfl, hrest, hx⟩ :=
        buildFaces_cons_inv pF pI lines fprops fsl j rest fl hok
      subst hfl
      rcases List.mem_cons.mp hi with rfl | hi'
      · rw [hx hbound]
        exact List.mem_cons_self _ _
      · exact List.mem_cons_of_mem _ (ih t hrest i hi' hbound)

end Ply

/-- C9 counterexample: a header declaring 2 vertices over a single data line
makes the decode crash with the untyped TypeError of the statistics pass
iterating the sparse points array — not return a typed error. -/
theorem parse_ply_overrun_crash_cex :
    Ply.parsePLYAscii (fun _ => 0) (fun _ => 0) ["0 0 0"]
        [{ name := "x" }, { name := "y" }, { name := "z" }] [] 0 2 0
      = .error Ply.PlyError.typeErrorCrash
    ∧ ∀ msg, Ply.parsePLYAscii (fun _ => 0) (fun _ => 0) ["0 0 0"]
        [{ name := "x" }, { name := "y" }, { name := "z" }] [] 0 2 0
      ≠ .error (Ply.PlyError.typed msg) := by
  have hhole : (none : Option Ply.PPoint) ∈ Ply.asciiPoints (fun _ => 0)
      (fun _ => 0) ["0 0 0"] [{ name := "x" }, { name := "y" }, { name := "z" }]
      0 2 := by
    refine List.mem_map.mpr ⟨1, List.mem_range.mpr (by decide), ?_⟩
    exact Ply.asciiPointAt_none _ _ _ _ _ _ (by decide)
  have hA : Ply.parseAsciiPLYFn (fun _ => 0) (fun _ => 0) ["0 0 0"]
      [{ name := "x" }, { name := "y" }, { name := "z" }] [] 0 2 0
      = .ok { points := (Ply.asciiPoints (fun _ => 0) (fun _ => 0) ["0 0 0"]
                [{ name := "x" }, { name := "y" }, { name := "z" }] 0 2),
              faces := none } := by
    unfold Ply.parseAsciiPLYFn Ply.asciiFaces
    rw [if_pos rfl]
  have h1 : Ply.parsePLYAscii (fun _ => 0) (fun _ => 0) ["0 0 0"]
      [{ name := "x" }, { name := "y" }, { name := "z" }] [] 0 2 0
      = .error Ply.PlyError.typeErrorCrash := by
    unfold Ply.parsePLYAscii
    simp only [hA]
    rw [Ply.statsPointsGo_hole _ 0 [] hhole]
  refine ⟨h1, ?_⟩
  intro msg hc
  rw [h1] at hc
  exact Ply.PlyError.noConfusion (Except.error.inj hc)

/-- C9 (amended): when the declared vertex count exceeds the data lines
present (or the declared face count exceeds the remaining lines), the ascii
decode never returns a (partially-parsed) result — it errors; but the error
is an untyped engine crash (a TypeError on a sparse-array hole in the
statistics pass, or a RangeError in the face parser), not a typed error. -/
theorem parse_ply_overrun_errors (pF : String → ℚ) (pI : String → Int)
    (lines : List String) (props fprops : List Ply.PropDef)
    (startLine vertexCount faceCount : ℕ)
    (hshort : lines.length - startLine < vertexCount ∨
      (0 < faceCount ∧ lines.length - (startLine + vertexCount) < faceCount)) :
    ∃ e, Ply.parsePLYAscii pF pI lines props fprops startLine vertexCount faceCount
      = .error e := by
  cases hF : Ply.asciiFaces pF pI lines fprops startLine vertexCount faceCount with
  | error e =>
      refine ⟨e, ?_⟩
      unfold Ply.parsePLYAscii Ply.parseAsciiPLYFn
      rw [hF]
  | ok fcs =>
      have hA : Ply.parseAsciiPLYFn pF pI lines props fprops startLine vertexCount
          faceCount
          = .ok { points := Ply.asciiPoints pF pI lines props startLine vertexCount,
                  faces := fcs } := by
        unfold Ply.parseAsciiPLYFn
        rw [hF]
      rcases hshort with hv | ⟨hfc, hf⟩
      · have hhole : (none : Option Ply.PPoint) ∈
            Ply.asciiPoints pF pI lines props startLine vertexCount := by
          refine List.mem_map.mpr ⟨vertexCount - 1, List.mem_range.mpr (by omega), ?_⟩
          exact Ply.asciiPointAt_none pF pI lines props startLine _ (by omega)
        refine ⟨Ply.PlyError.typeErrorCrash, ?_⟩
        unfold Ply.parsePLYAscii
        simp only [hA]
        rw [Ply.statsPointsGo_hole _ 0 [] hhole]
      · have h0 : ¬ (faceCount = 0) := by omega
        unfold Ply.asciiFaces at hF
        rw [if_neg h0] at hF
        cases hB : Ply.buildFaces pF pI lines fprops (startLine + vertexCount)
            (List.range faceCount) with
        | error e =>
            rw [hB] at hF
            exact absurd hF (by simp [Except.map])
        | ok fl =>
            rw [hB] at hF
            simp only [Except.map] at hF
            have hfcs : fcs = some fl := (Except.ok.inj hF).symm
            subst hfcs
            have hhole : (none : Option Ply.PFace) ∈ fl :=
              Ply.buildFaces_ok_hole pF pI lines fprops (startLine + vertexCount)
                (List.range faceCount) fl hB (faceCount - 1)
                (List.mem_range.mpr (by omega)) (by omega)
            unfold Ply.parsePLYAscii
            simp only [hA]
            cases hS : Ply.statsPointsGo 0 []
                (Ply.asciiPoints pF pI lines props startLine vertexCount) with
            | error e =>
                exact ⟨e, rfl⟩
            | ok pr =>
                obtain ⟨lc, ls⟩ := pr
                refine ⟨Ply.PlyError.typeErrorCrash, ?_⟩
                rw [Ply.statsFacesGo_hole fl 0 [] hhole]

/-- C9 witness: the overrun theorem applied to a header declaring one vertex
over an empty data section. -/
theorem parse_ply_overrun_errors_witness :
    ∃ e, Ply.parsePLYAscii (fun _ => 0) (fun _ => 0) [] [] [] 0 1 0
      = .error e :=
  parse_ply_overrun_errors (fun _ => 0) (fun _ => 0) [] [] [] 0 1 0
    (Or.inl (by decide))
